import Mathlib

/-!
Verification of the tyre-inventory single-page application.

The repository has two variants of the same page component:
* `Page` embeds `src/src/app/page.tsx` (key = width / ratio / rim);
* `Sec` embeds `src/unnamed/part_000` (key additionally has a `section`
  field, stored uppercased and compared case-insensitively).

Strings are modelled as `List Char`.  JavaScript's `parseInt(s, 10)` is
modelled by `jsParseInt`, `String.prototype.includes` by `containsSub`,
`toLowerCase`/`toUpperCase` by character-wise `Char.toLower`/`Char.toUpper`
(the inputs the handlers ever compare are validated ASCII, where these
agree with JavaScript).  The external Supabase store is opaque to the
component; each handler takes the store's reply as an explicit argument
(`StoreReply` for `update`/`delete`, `InsertReply` for `insert`, whose
success case carries the store-assigned id and timestamp per the store
contract).  A handler's observable effect is the record it returns: the
new in-memory list, the form error message (`[]` after `setError('')`),
the per-id removal-quantity map and the `console.error` log.
-/

/-- Character-wise `toLowerCase` of a JavaScript string. -/
def lowerStr (s : List Char) : List Char := s.map Char.toLower

/-- Character-wise `toUpperCase` of a JavaScript string. -/
def upperStr (s : List Char) : List Char := s.map Char.toUpper

/-- `hay.includes(needle)`: `needle` occurs contiguously in `hay`. -/
def containsSub (hay needle : List Char) : Bool :=
  if needle.isPrefixOf hay then true
  else
    match hay with
    | [] => false
    | _ :: t => containsSub t needle

/-- Value of a digit string, most significant first. -/
def digitsVal (ds : List Char) : Nat :=
  ds.foldl (fun n c => 10 * n + (c.toNat - 48)) 0

/-- The maximal leading run of ASCII digits, as a number; `none` when there
is no leading digit (`parseInt` returns `NaN`). -/
def parseDigits (t : List Char) : Option Nat :=
  match t.takeWhile Char.isDigit with
  | [] => none
  | ds => some (digitsVal ds)

/-- JavaScript `parseInt(s, 10)`: skip leading whitespace, read an optional
sign, then the maximal run of ASCII digits; `none` models `NaN`. -/
def jsParseInt (s : List Char) : Option Int :=
  match s.dropWhile Char.isWhitespace with
  | '-' :: rest => (parseDigits rest).map (fun n => -(n : Int))
  | '+' :: rest => (parseDigits rest).map (fun n => (n : Int))
  | t => (parseDigits t).map (fun n => (n : Int))

/-- The removal-quantity input's `onChange` value: `parseInt(v, 10) || 1`,
where `||` replaces the falsy values `NaN`, `0` and `-0` by `1` and keeps
every other number, negative ones included (both source files). -/
def removeQtyOnChange (s : List Char) : Int :=
  match jsParseInt s with
  | none => 1
  | some n => if n = 0 then 1 else n

/-- Reply of the store to an `update` or `delete` call. -/
inductive StoreReply where
  | ok
  | fail (msg : List Char)
deriving DecidableEq

/-- Reply of the store to an `insert(...).select()` call; on success the
store echoes the row with its assigned id and creation timestamp. -/
inductive InsertReply where
  | ok (newId : Nat) (newCreatedAt : List Char)
  | fail (msg : List Char)
deriving DecidableEq

/-- `'Tyre Width must be exactly 3 digits.'` -/
def widthErrMsg : List Char := "Tyre Width must be exactly 3 digits.".data

/-- `'Ratio must be exactly 2 digits.'` -/
def ratioErrMsg : List Char := "Ratio must be exactly 2 digits.".data

/-- `'Rim must be 2 to 3 alphanumeric characters.'` -/
def rimErrMsg : List Char := "Rim must be 2 to 3 alphanumeric characters.".data

/-- `'Quantity must be at least 1.'` -/
def quantityErrMsg : List Char := "Quantity must be at least 1.".data

/-- `'Section must be one letter followed by one number (e.g., A1).'` -/
def sectionErrMsg : List Char :=
  "Section must be one letter followed by one number (e.g., A1).".data

/-- First argument of `console.error` in the delete branch. -/
def deleteLogMsg : List Char := "Error deleting tyre:".data

/-- First argument of `console.error` in the decrease branch. -/
def updateLogMsg : List Char := "Error updating tyre quantity:".data

namespace Page

/-- The `Tyre` interface of `src/src/app/page.tsx`. -/
structure Tyre where
  id : Nat
  tyre_width : List Char
  ratio : List Char
  rim : List Char
  quantity : Int
  created_at : List Char
deriving DecidableEq

/-- `/^\d{3}$/.test(value)`. -/
def validateTyreWidth (value : List Char) : Bool :=
  match value with
  | [a, b, c] => a.isDigit && b.isDigit && c.isDigit
  | _ => false

/-- `/^\d{2}$/.test(value)`. -/
def validateRatio (value : List Char) : Bool :=
  match value with
  | [a, b] => a.isDigit && b.isDigit
  | _ => false

/-- `/^[A-Za-z0-9]{2,3}$/.test(value)`. -/
def validateRim (value : List Char) : Bool :=
  match value with
  | [a, b] => a.isAlphanum && b.isAlphanum
  | [a, b, c] => a.isAlphanum && b.isAlphanum && c.isAlphanum
  | _ => false

/-- Observable outcome of `handleAddTyre`: the tyre list and the `error`
state after the handler returns (`[]` is `setError('')`; the cleared form
fields are not modelled). -/
structure AddResult where
  tyres : List Tyre
  error : List Char
deriving DecidableEq

/-- `handleAddTyre` of `src/src/app/page.tsx`: validate the four inputs in
order, look for a record with the same width/ratio/rim, then either update
that record's quantity or insert a new row, mirroring the local list only
when the store call succeeded. -/
def handleAddTyre (tyres : List Tyre) (tyreWidth ratio rim quantity : List Char)
    (updReply : StoreReply) (insReply : InsertReply) : AddResult :=
  if !(validateTyreWidth tyreWidth) then ⟨tyres, widthErrMsg⟩
  else if !(validateRatio ratio) then ⟨tyres, ratioErrMsg⟩
  else if !(validateRim rim) then ⟨tyres, rimErrMsg⟩
  else
    match jsParseInt quantity with
    | none => ⟨tyres, quantityErrMsg⟩
    | some quantityNumber =>
      if quantityNumber < 1 then ⟨tyres, quantityErrMsg⟩
      else
        match tyres.find? (fun tyre =>
            tyre.tyre_width == tyreWidth && tyre.ratio == ratio && tyre.rim == rim) with
        | some existingTyre =>
          match updReply with
          | .fail msg => ⟨tyres, msg⟩
          | .ok =>
            ⟨tyres.map (fun tyre =>
              if tyre.id == existingTyre.id then
                { tyre with quantity := existingTyre.quantity + quantityNumber }
              else tyre), []⟩
        | none =>
          match insReply with
          | .fail msg => ⟨tyres, msg⟩
          | .ok newId newCreatedAt =>
            ⟨tyres ++ [⟨newId, tyreWidth, ratio, rim, quantityNumber, newCreatedAt⟩], []⟩

/-- Observable outcome of `handleRemoveTyre`: the tyre list, the
`removeQuantities` state and the `console.error` log (pairs of the fixed
prefix and the store's message). -/
structure RemoveResult where
  tyres : List Tyre
  removeQuantities : Nat → Option Int
  log : List (List Char × List Char)

/-- `handleRemoveTyre` of `src/src/app/page.tsx`: look the record up by id
(absent id: no-op); delete the row when `removeQty >= quantity`, otherwise
store the reduced quantity; on success mirror the list locally and reset
the removal input for that id to 1; on store failure only log. -/
def handleRemoveTyre (tyres : List Tyre) (removeQuantities : Nat → Option Int)
    (id : Nat) (removeQty : Int) (delReply updReply : StoreReply) : RemoveResult :=
  match tyres.find? (fun tyre => tyre.id == id) with
  | none => ⟨tyres, removeQuantities, []⟩
  | some tyreToRemove =>
    if removeQty ≥ tyreToRemove.quantity then
      match delReply with
      | .fail msg => ⟨tyres, removeQuantities, [(deleteLogMsg, msg)]⟩
      | .ok =>
        ⟨tyres.filter (fun tyre => !(tyre.id == id)),
         fun j => if j = id then some 1 else removeQuantities j, []⟩
    else
      match updReply with
      | .fail msg => ⟨tyres, removeQuantities, [(updateLogMsg, msg)]⟩
      | .ok =>
        ⟨tyres.map (fun tyre =>
          if tyre.id == id then
            { tyre with quantity := tyreToRemove.quantity - removeQty }
          else tyre),
         fun j => if j = id then some 1 else removeQuantities j, []⟩

/-- The `filteredTyres` derivation: keep a tyre when each non-empty search
field is contained, case-insensitively, in the tyre's field. -/
def filteredTyres (tyres : List Tyre) (searchWidth searchRatio searchRim : List Char) :
    List Tyre :=
  tyres.filter (fun tyre =>
    (if searchWidth.isEmpty then true
     else containsSub (lowerStr tyre.tyre_width) (lowerStr searchWidth)) &&
    (if searchRatio.isEmpty then true
     else containsSub (lowerStr tyre.ratio) (lowerStr searchRatio)) &&
    (if searchRim.isEmpty then true
     else containsSub (lowerStr tyre.rim) (lowerStr searchRim)))

/-- `parseInt(tyre_width, 10)` as used by the sort comparator; a width that
does not parse compares as `NaN` in the source, whose ordering the source
leaves undefined, so the `0` default is never relied upon by the theorems,
which all assume parsing widths. -/
def widthNum (tyre : Tyre) : Int := (jsParseInt tyre.tyre_width).getD 0

/-- The sort comparator: `aNum - bNum` for `'asc'`, `bNum - aNum` otherwise. -/
def sortCompare (sortOrder : List Char) (a b : Tyre) : Int :=
  if sortOrder == "asc".data then widthNum a - widthNum b else widthNum b - widthNum a

/-- `filteredTyres.sort(...)`: JavaScript's stable sort under the width
comparator, modelled by `mergeSort` with `compare ≤ 0`. -/
def sortedTyres (sortOrder : List Char) (tyres : List Tyre) : List Tyre :=
  tyres.mergeSort (fun a b => sortCompare sortOrder a b ≤ 0)

/-- `useState('asc')`: the initial sort order. -/
def initialSortOrder : List Char := "asc".data

end Page

namespace Sec

/-- The `Tyre` interface of `src/unnamed/part_000`; its `section` field is
named `sect` here because `section` is a Lean keyword. -/
structure Tyre where
  id : Nat
  tyre_width : List Char
  ratio : List Char
  rim : List Char
  sect : List Char
  quantity : Int
  created_at : List Char
deriving DecidableEq

/-- `/^\d{3}$/.test(value)`. -/
def validateTyreWidth (value : List Char) : Bool :=
  match value with
  | [a, b, c] => a.isDigit && b.isDigit && c.isDigit
  | _ => false

/-- `/^\d{2}$/.test(value)`. -/
def validateRatio (value : List Char) : Bool :=
  match value with
  | [a, b] => a.isDigit && b.isDigit
  | _ => false

/-- `/^[A-Za-z0-9]{2,3}$/.test(value)`. -/
def validateRim (value : List Char) : Bool :=
  match value with
  | [a, b] => a.isAlphanum && b.isAlphanum
  | [a, b, c] => a.isAlphanum && b.isAlphanum && c.isAlphanum
  | _ => false

/-- `/^[A-Za-z]\d$/.test(value)`. -/
def validateSection (value : List Char) : Bool :=
  match value with
  | [a, b] => a.isAlpha && b.isDigit
  | _ => false

/-- Observable outcome of `handleAddTyre`, as in `Page.AddResult`. -/
structure AddResult where
  tyres : List Tyre
  error : List Char
deriving DecidableEq

/-- `handleAddTyre` of `src/unnamed/part_000`: like the `Page` variant but
the key includes the section, compared case-insensitively and stored
uppercased on insert. -/
def handleAddTyre (tyres : List Tyre) (tyreWidth ratio rim sect quantity : List Char)
    (updReply : StoreReply) (insReply : InsertReply) : AddResult :=
  if !(validateTyreWidth tyreWidth) then ⟨tyres, widthErrMsg⟩
  else if !(validateRatio ratio) then ⟨tyres, ratioErrMsg⟩
  else if !(validateRim rim) then ⟨tyres, rimErrMsg⟩
  else if !(validateSection sect) then ⟨tyres, sectionErrMsg⟩
  else
    match jsParseInt quantity with
    | none => ⟨tyres, quantityErrMsg⟩
    | some quantityNumber =>
      if quantityNumber < 1 then ⟨tyres, quantityErrMsg⟩
      else
        match tyres.find? (fun tyre =>
            tyre.tyre_width == tyreWidth && tyre.ratio == ratio && tyre.rim == rim &&
            upperStr tyre.sect == upperStr sect) with
        | some existingTyre =>
          match updReply with
          | .fail msg => ⟨tyres, msg⟩
          | .ok =>
            ⟨tyres.map (fun tyre =>
              if tyre.id == existingTyre.id then
                { tyre with quantity := existingTyre.quantity + quantityNumber }
              else tyre), []⟩
        | none =>
          match insReply with
          | .fail msg => ⟨tyres, msg⟩
          | .ok newId newCreatedAt =>
            ⟨tyres ++ [⟨newId, tyreWidth, ratio, rim, upperStr sect, quantityNumber,
              newCreatedAt⟩], []⟩

/-- Observable outcome of `handleRemoveTyre`, as in `Page.RemoveResult`. -/
structure RemoveResult where
  tyres : List Tyre
  removeQuantities : Nat → Option Int
  log : List (List Char × List Char)

/-- `handleRemoveTyre` of `src/unnamed/part_000` (same code as the `Page`
variant). -/
def handleRemoveTyre (tyres : List Tyre) (removeQuantities : Nat → Option Int)
    (id : Nat) (removeQty : Int) (delReply updReply : StoreReply) : RemoveResult :=
  match tyres.find? (fun tyre => tyre.id == id) with
  | none => ⟨tyres, removeQuantities, []⟩
  | some tyreToRemove =>
    if removeQty ≥ tyreToRemove.quantity then
      match delReply with
      | .fail msg => ⟨tyres, removeQuantities, [(deleteLogMsg, msg)]⟩
      | .ok =>
        ⟨tyres.filter (fun tyre => !(tyre.id == id)),
         fun j => if j = id then some 1 else removeQuantities j, []⟩
    else
      match updReply with
      | .fail msg => ⟨tyres, removeQuantities, [(updateLogMsg, msg)]⟩
      | .ok =>
        ⟨tyres.map (fun tyre =>
          if tyre.id == id then
            { tyre with quantity := tyreToRemove.quantity - removeQty }
          else tyre),
         fun j => if j = id then some 1 else removeQuantities j, []⟩

/-- The `filteredTyres` derivation of `src/unnamed/part_000` (adds the
section search field). -/
def filteredTyres (tyres : List Tyre)
    (searchWidth searchRatio searchRim searchSection : List Char) : List Tyre :=
  tyres.filter (fun tyre =>
    (if searchWidth.isEmpty then true
     else containsSub (lowerStr tyre.tyre_width) (lowerStr searchWidth)) &&
    (if searchRatio.isEmpty then true
     else containsSub (lowerStr tyre.ratio) (lowerStr searchRatio)) &&
    (if searchRim.isEmpty then true
     else containsSub (lowerStr tyre.rim) (lowerStr searchRim)) &&
    (if searchSection.isEmpty then true
     else containsSub (lowerStr tyre.sect) (lowerStr searchSection)))

/-- `parseInt(tyre_width, 10)` as used by the sort comparator; see
`Page.widthNum` for the `0` default. -/
def widthNum (tyre : Tyre) : Int := (jsParseInt tyre.tyre_width).getD 0

/-- The sort comparator: `aNum - bNum` for `'asc'`, `bNum - aNum` otherwise. -/
def sortCompare (sortOrder : List Char) (a b : Tyre) : Int :=
  if sortOrder == "asc".data then widthNum a - widthNum b else widthNum b - widthNum a

/-- `filteredTyres.sort(...)` of `src/unnamed/part_000`. -/
def sortedTyres (sortOrder : List Char) (tyres : List Tyre) : List Tyre :=
  tyres.mergeSort (fun a b => sortCompare sortOrder a b ≤ 0)

/-- `useState('asc')`: the initial sort order. -/
def initialSortOrder : List Char := "asc".data

end Sec

/-! Shared lemmas about the string helpers. -/

theorem toNat_ofNat_lt (m : Nat) (h : m < 55296) : (Char.ofNat m).toNat = m := by
  have hv : Nat.isValidChar m := Or.inl h
  rw [Char.ofNat, dif_pos hv]
  simp [Char.ofNatAux, Char.toNat, UInt32.ofNat', UInt32.toNat]

theorem toUpper_toUpper (c : Char) : c.toUpper.toUpper = c.toUpper := by
  unfold Char.toUpper
  by_cases h : c.toNat ≥ 97 ∧ c.toNat ≤ 122
  · rw [if_pos h]
    have h32 : c.toNat - 32 < 55296 := by
      rcases h with ⟨-, h2⟩
      omega
    rw [toNat_ofNat_lt _ h32, if_neg (by omega)]
  · rw [if_neg h, if_neg h]

theorem upperStr_upperStr (s : List Char) : upperStr (upperStr s) = upperStr s := by
  unfold upperStr
  rw [List.map_map]
  apply List.map_congr_left
  intro c _
  exact toUpper_toUpper c

theorem containsSub_iff (hay needle : List Char) :
    containsSub hay needle = true ↔ ∃ pre post, hay = pre ++ needle ++ post := by
  induction hay with
  | nil =>
    rw [containsSub]
    constructor
    · intro h
      split at h
      · next hp =>
        rcases List.isPrefixOf_iff_prefix.mp hp with ⟨t, ht⟩
        exact ⟨[], t, by simp [← ht]⟩
      · exact absurd h (by simp)
    · rintro ⟨pre, post, hp⟩
      rcases List.append_eq_nil.mp (List.append_eq_nil.mp hp.symm).1 with ⟨-, h2⟩
      subst h2
      simp
  | cons c t ih =>
    rw [containsSub]
    constructor
    · intro h
      split at h
      · next hp =>
        rcases List.isPrefixOf_iff_prefix.mp hp with ⟨tl, htl⟩
        exact ⟨[], tl, by simp [← htl]⟩
      · rcases ih.mp h with ⟨pre, post, hpp⟩
        exact ⟨c :: pre, post, by simp [hpp]⟩
    · rintro ⟨pre, post, hp⟩
      split
      · rfl
      · next hnp =>
        cases pre with
        | nil =>
          exact absurd (List.isPrefixOf_iff_prefix.mpr ⟨post, by simpa using hp.symm⟩) hnp
        | cons d pre' =>
          simp only [List.cons_append] at hp
          cases hp
          exact ih.mpr ⟨pre', post, rfl⟩

instance instDecSubstring (hay needle : List Char) :
    Decidable (∃ pre post, hay = pre ++ needle ++ post) :=
  decidable_of_iff (containsSub hay needle = true) (containsSub_iff hay needle)

theorem emptyOrContains (s hay : List Char) :
    (if s.isEmpty then true else containsSub hay (lowerStr s)) =
      decide (s = [] ∨ ∃ pre post, hay = pre ++ lowerStr s ++ post) := by
  cases hse : s.isEmpty
  · have hs : s ≠ [] := by simpa using hse
    rw [Bool.eq_iff_iff]
    simp [hs, containsSub_iff]
  · have hs : s = [] := by simpa using hse
    simp [hs]

/-! Generic list lemmas: a scan that can match at most one element, and how
`map`/`filter` with an id-keyed branch act on a list with distinct keys. -/

theorem find_eq_of_unique {α : Type} {p : α → Bool} {R : α → α → Prop} {l : List α} {a : α}
    (hR : ∀ x y, p x = true → p y = true → R x y)
    (hl : l.Pairwise (fun x y => ¬ R x y)) (ha : a ∈ l) (hpa : p a = true) :
    l.find? p = some a := by
  induction l with
  | nil => cases ha
  | cons h t ih =>
    rw [List.pairwise_cons] at hl
    rcases List.mem_cons.mp ha with rfl | hat
    · rw [List.find?_cons_of_pos _ hpa]
    · by_cases hph : p h = true
      · exact absurd (hR h a hph hpa) (hl.1 a hat)
      · rw [List.find?_cons_of_neg _ (by simpa using hph)]
        exact ih hl.2 hat

theorem map_ite_update {α β : Type} [BEq β] [LawfulBEq β] (key : α → β) (upd : α → α)
    (l₁ l₂ : List α) (a : α)
    (h : (l₁ ++ a :: l₂).Pairwise (fun x y => key x ≠ key y)) :
    (l₁ ++ a :: l₂).map (fun t => if key t == key a then upd t else t) = l₁ ++ upd a :: l₂ := by
  rw [List.pairwise_append] at h
  obtain ⟨h₁, h₂, h₁₂⟩ := h
  rw [List.pairwise_cons] at h₂
  rw [List.map_append]
  congr 1
  · conv_rhs => rw [← List.map_id l₁]
    apply List.map_congr_left
    intro x hx
    have hne : key x ≠ key a := h₁₂ x hx a (List.mem_cons_self a l₂)
    simp [hne]
  · rw [List.map_cons]
    congr 1
    · simp
    · conv_rhs => rw [← List.map_id l₂]
      apply List.map_congr_left
      intro x hx
      have hne : key x ≠ key a := fun he => h₂.1 x hx he.symm
      simp [hne]

theorem filter_ne_erase {α β : Type} [BEq β] [LawfulBEq β] (key : α → β)
    (l₁ l₂ : List α) (a : α)
    (h : (l₁ ++ a :: l₂).Pairwise (fun x y => key x ≠ key y)) :
    (l₁ ++ a :: l₂).filter (fun t => !(key t == key a)) = l₁ ++ l₂ := by
  rw [List.pairwise_append] at h
  obtain ⟨h₁, h₂, h₁₂⟩ := h
  rw [List.pairwise_cons] at h₂
  rw [List.filter_append]
  congr 1
  · apply List.filter_eq_self.mpr
    intro x hx
    have hne : key x ≠ key a := h₁₂ x hx a (List.mem_cons_self a l₂)
    simp [hne]
  · rw [List.filter_cons_of_neg (by simp)]
    apply List.filter_eq_self.mpr
    intro x hx
    have hne : key x ≠ key a := fun he => h₂.1 x hx he.symm
    simp [hne]

/-! Lemmas about the two components' scans and validation gates. -/

theorem page_find_id (tyres : List Page.Tyre) (rec : Page.Tyre)
    (hpw : tyres.Pairwise (fun a b => a.id ≠ b.id)) (hmem : rec ∈ tyres) :
    tyres.find? (fun t => t.id == rec.id) = some rec := by
  apply find_eq_of_unique (R := fun a b => a.id = b.id)
  · intro x y hx hy
    have hx2 : x.id = rec.id := by simpa using hx
    have hy2 : y.id = rec.id := by simpa using hy
    rw [hx2, hy2]
  · exact hpw
  · exact hmem
  · simp

theorem sec_find_id (tyres : List Sec.Tyre) (rec : Sec.Tyre)
    (hpw : tyres.Pairwise (fun a b => a.id ≠ b.id)) (hmem : rec ∈ tyres) :
    tyres.find? (fun t => t.id == rec.id) = some rec := by
  apply find_eq_of_unique (R := fun a b => a.id = b.id)
  · intro x y hx hy
    have hx2 : x.id = rec.id := by simpa using hx
    have hy2 : y.id = rec.id := by simpa using hy
    rw [hx2, hy2]
  · exact hpw
  · exact hmem
  · simp

theorem page_find_key (tyres : List Page.Tyre) (ex : Page.Tyre) (w r rm : List Char)
    (hpw : tyres.Pairwise (fun a b =>
      ¬(a.tyre_width = b.tyre_width ∧ a.ratio = b.ratio ∧ a.rim = b.rim)))
    (hmem : ex ∈ tyres) (hw : ex.tyre_width = w) (hr : ex.ratio = r) (hm : ex.rim = rm) :
    tyres.find? (fun t => t.tyre_width == w && t.ratio == r && t.rim == rm) = some ex := by
  apply find_eq_of_unique
    (R := fun a b => a.tyre_width = b.tyre_width ∧ a.ratio = b.ratio ∧ a.rim = b.rim)
  · intro x y hx hy
    simp only [Bool.and_eq_true, beq_iff_eq] at hx hy
    exact ⟨hx.1.1.trans hy.1.1.symm, hx.1.2.trans hy.1.2.symm, hx.2.trans hy.2.symm⟩
  · exact hpw
  · exact hmem
  · simp [hw, hr, hm]

theorem sec_find_key (tyres : List Sec.Tyre) (ex : Sec.Tyre) (w r rm sc : List Char)
    (hpw : tyres.Pairwise (fun a b =>
      ¬(a.tyre_width = b.tyre_width ∧ a.ratio = b.ratio ∧ a.rim = b.rim ∧
        upperStr a.sect = upperStr b.sect)))
    (hmem : ex ∈ tyres) (hw : ex.tyre_width = w) (hr : ex.ratio = r) (hm : ex.rim = rm)
    (hs : upperStr ex.sect = upperStr sc) :
    tyres.find? (fun t => t.tyre_width == w && t.ratio == r && t.rim == rm &&
      upperStr t.sect == upperStr sc) = some ex := by
  apply find_eq_of_unique
    (R := fun a b => a.tyre_width = b.tyre_width ∧ a.ratio = b.ratio ∧ a.rim = b.rim ∧
      upperStr a.sect = upperStr b.sect)
  · intro x y hx hy
    simp only [Bool.and_eq_true, beq_iff_eq] at hx hy
    exact ⟨hx.1.1.1.trans hy.1.1.1.symm, hx.1.1.2.trans hy.1.1.2.symm,
      hx.1.2.trans hy.1.2.symm, hx.2.trans hy.2.symm⟩
  · exact hpw
  · exact hmem
  · simp [hw, hr, hm, hs]

theorem page_add_gate (tyres : List Page.Tyre) (w r rm q : List Char)
    (uR : StoreReply) (iR : InsertReply)
    (hvw : Page.validateTyreWidth w = true) (hvr : Page.validateRatio r = true)
    (hvm : Page.validateRim rm = true)
    (n : Int) (hq : jsParseInt q = some n) (h1 : ¬ n < 1) :
    Page.handleAddTyre tyres w r rm q uR iR =
      match tyres.find? (fun t => t.tyre_width == w && t.ratio == r && t.rim == rm) with
      | some ex =>
        match uR with
        | .fail msg => ⟨tyres, msg⟩
        | .ok => ⟨tyres.map (fun t =>
            if t.id == ex.id then { t with quantity := ex.quantity + n } else t), []⟩
      | none =>
        match iR with
        | .fail msg => ⟨tyres, msg⟩
        | .ok nid nts => ⟨tyres ++ [⟨nid, w, r, rm, n, nts⟩], []⟩ := by
  unfold Page.handleAddTyre
  rw [if_neg (by simp [hvw]), if_neg (by simp [hvr]), if_neg (by simp [hvm]), hq]
  simp only [if_neg h1]

theorem sec_add_gate (tyres : List Sec.Tyre) (w r rm sc q : List Char)
    (uR : StoreReply) (iR : InsertReply)
    (hvw : Sec.validateTyreWidth w = true) (hvr : Sec.validateRatio r = true)
    (hvm : Sec.validateRim rm = true) (hvs : Sec.validateSection sc = true)
    (n : Int) (hq : jsParseInt q = some n) (h1 : ¬ n < 1) :
    Sec.handleAddTyre tyres w r rm sc q uR iR =
      match tyres.find? (fun t => t.tyre_width == w && t.ratio == r && t.rim == rm &&
        upperStr t.sect == upperStr sc) with
      | some ex =>
        match uR with
        | .fail msg => ⟨tyres, msg⟩
        | .ok => ⟨tyres.map (fun t =>
            if t.id == ex.id then { t with quantity := ex.quantity + n } else t), []⟩
      | none =>
        match iR with
        | .fail msg => ⟨tyres, msg⟩
        | .ok nid nts => ⟨tyres ++ [⟨nid, w, r, rm, upperStr sc, n, nts⟩], []⟩ := by
  unfold Sec.handleAddTyre
  rw [if_neg (by simp [hvw]), if_neg (by simp [hvr]), if_neg (by simp [hvm]),
    if_neg (by simp [hvs]), hq]
  simp only [if_neg h1]

/-- C5: validation accepts the width field iff the string is exactly 3 ASCII
digits, the ratio field iff exactly 2 ASCII digits, the rim field iff 2 to 3
alphanumeric characters, and (in the section variant) the section field iff
exactly one letter followed by one digit — in both source variants. -/
theorem claim_C5 :
    (∀ s : List Char, Page.validateTyreWidth s = true ↔
      s.length = 3 ∧ ∀ c ∈ s, c.isDigit = true) ∧
    (∀ s : List Char, Page.validateRatio s = true ↔
      s.length = 2 ∧ ∀ c ∈ s, c.isDigit = true) ∧
    (∀ s : List Char, Page.validateRim s = true ↔
      (s.length = 2 ∨ s.length = 3) ∧ ∀ c ∈ s, c.isAlphanum = true) ∧
    (∀ s : List Char, Sec.validateTyreWidth s = true ↔
      s.length = 3 ∧ ∀ c ∈ s, c.isDigit = true) ∧
    (∀ s : List Char, Sec.validateRatio s = true ↔
      s.length = 2 ∧ ∀ c ∈ s, c.isDigit = true) ∧
    (∀ s : List Char, Sec.validateRim s = true ↔
      (s.length = 2 ∨ s.length = 3) ∧ ∀ c ∈ s, c.isAlphanum = true) ∧
    (∀ s : List Char, Sec.validateSection s = true ↔
      ∃ a b, s = [a, b] ∧ a.isAlpha = true ∧ b.isDigit = true) := by
  refine ⟨?_, ?_, ?_, ?_, ?_, ?_, ?_⟩ <;> intro s <;>
    rcases s with _ | ⟨a, _ | ⟨b, _ | ⟨c, _ | ⟨d, t⟩⟩⟩⟩ <;>
    simp [Page.validateTyreWidth, Page.validateRatio, Page.validateRim,
      Sec.validateTyreWidth, Sec.validateRatio, Sec.validateRim, Sec.validateSection,
      and_assoc]

/-- C7: the filter retains a record iff, for each field whose search term is
non-empty, the record's field contains the term as a case-insensitive
substring; empty terms impose no constraint, and with all terms empty the
whole list comes back in order — in both source variants. -/
theorem claim_C7 :
    (∀ (tyres : List Page.Tyre) (sw sr srm : List Char),
      Page.filteredTyres tyres sw sr srm = tyres.filter (fun t : Page.Tyre => decide (
        (sw = [] ∨ ∃ pre post, lowerStr t.tyre_width = pre ++ lowerStr sw ++ post) ∧
        (sr = [] ∨ ∃ pre post, lowerStr t.ratio = pre ++ lowerStr sr ++ post) ∧
        (srm = [] ∨ ∃ pre post, lowerStr t.rim = pre ++ lowerStr srm ++ post)))) ∧
    (∀ tyres : List Page.Tyre, Page.filteredTyres tyres [] [] [] = tyres) ∧
    (∀ (tyres : List Sec.Tyre) (sw sr srm ss : List Char),
      Sec.filteredTyres tyres sw sr srm ss = tyres.filter (fun t : Sec.Tyre => decide (
        (sw = [] ∨ ∃ pre post, lowerStr t.tyre_width = pre ++ lowerStr sw ++ post) ∧
        (sr = [] ∨ ∃ pre post, lowerStr t.ratio = pre ++ lowerStr sr ++ post) ∧
        (srm = [] ∨ ∃ pre post, lowerStr t.rim = pre ++ lowerStr srm ++ post) ∧
        (ss = [] ∨ ∃ pre post, lowerStr t.sect = pre ++ lowerStr ss ++ post)))) ∧
    (∀ tyres : List Sec.Tyre, Sec.filteredTyres tyres [] [] [] [] = tyres) := by
  have hpage : ∀ (tyres : List Page.Tyre) (sw sr srm : List Char),
      Page.filteredTyres tyres sw sr srm = tyres.filter (fun t : Page.Tyre => decide (
        (sw = [] ∨ ∃ pre post, lowerStr t.tyre_width = pre ++ lowerStr sw ++ post) ∧
        (sr = [] ∨ ∃ pre post, lowerStr t.ratio = pre ++ lowerStr sr ++ post) ∧
        (srm = [] ∨ ∃ pre post, lowerStr t.rim = pre ++ lowerStr srm ++ post))) := by
    intro tyres sw sr srm
    unfold Page.filteredTyres
    apply List.filter_congr
    intro t _
    rw [emptyOrContains, emptyOrContains, emptyOrContains, Bool.decide_and, Bool.decide_and,
      ← Bool.and_assoc]
  have hsec : ∀ (tyres : List Sec.Tyre) (sw sr srm ss : List Char),
      Sec.filteredTyres tyres sw sr srm ss = tyres.filter (fun t : Sec.Tyre => decide (
        (sw = [] ∨ ∃ pre post, lowerStr t.tyre_width = pre ++ lowerStr sw ++ post) ∧
        (sr = [] ∨ ∃ pre post, lowerStr t.ratio = pre ++ lowerStr sr ++ post) ∧
        (srm = [] ∨ ∃ pre post, lowerStr t.rim = pre ++ lowerStr srm ++ post) ∧
        (ss = [] ∨ ∃ pre post, lowerStr t.sect = pre ++ lowerStr ss ++ post))) := by
    intro tyres sw sr srm ss
    unfold Sec.filteredTyres
    apply List.filter_congr
    intro t _
    rw [emptyOrContains, emptyOrContains, emptyOrContains, emptyOrContains,
      Bool.decide_and, Bool.decide_and, Bool.decide_and]
    simp [Bool.and_assoc]
  refine ⟨hpage, ?_, hsec, ?_⟩
  · intro tyres
    rw [hpage]
    apply List.filter_eq_self.mpr
    intro t _
    simp
  · intro tyres
    rw [hsec]
    apply List.filter_eq_self.mpr
    intro t _
    simp

/-- C2: removing by an absent id is a no-op; a removal of at least the
current quantity deletes the record outright; a smaller removal keeps the
record with the same id and quantity `current − q`, and on success the
pending removal-quantity input for that id is reset to 1 — in both source
variants (the store's replies are the success ones on the acting branch). -/
theorem claim_C2 :
    (∀ (tyres : List Page.Tyre) (rq : Nat → Option Int) (id : Nat) (q : Int)
      (dR uR : StoreReply), (∀ t ∈ tyres, t.id ≠ id) →
      Page.handleRemoveTyre tyres rq id q dR uR = ⟨tyres, rq, []⟩) ∧
    (∀ (tyres : List Page.Tyre) (rq : Nat → Option Int) (q : Int) (uR : StoreReply)
      (rec : Page.Tyre), tyres.Pairwise (fun a b => a.id ≠ b.id) → rec ∈ tyres →
      q ≥ rec.quantity →
      ∃ l₁ l₂, tyres = l₁ ++ rec :: l₂ ∧
        Page.handleRemoveTyre tyres rq rec.id q .ok uR =
          ⟨l₁ ++ l₂, fun j => if j = rec.id then some 1 else rq j, []⟩) ∧
    (∀ (tyres : List Page.Tyre) (rq : Nat → Option Int) (q : Int) (dR : StoreReply)
      (rec : Page.Tyre), tyres.Pairwise (fun a b => a.id ≠ b.id) → rec ∈ tyres →
      q < rec.quantity →
      ∃ l₁ l₂, tyres = l₁ ++ rec :: l₂ ∧
        Page.handleRemoveTyre tyres rq rec.id q dR .ok =
          ⟨l₁ ++ { rec with quantity := rec.quantity - q } :: l₂,
           fun j => if j = rec.id then some 1 else rq j, []⟩) ∧
    (∀ (tyres : List Sec.Tyre) (rq : Nat → Option Int) (id : Nat) (q : Int)
      (dR uR : StoreReply), (∀ t ∈ tyres, t.id ≠ id) →
      Sec.handleRemoveTyre tyres rq id q dR uR = ⟨tyres, rq, []⟩) ∧
    (∀ (tyres : List Sec.Tyre) (rq : Nat → Option Int) (q : Int) (uR : StoreReply)
      (rec : Sec.Tyre), tyres.Pairwise (fun a b => a.id ≠ b.id) → rec ∈ tyres →
      q ≥ rec.quantity →
      ∃ l₁ l₂, tyres = l₁ ++ rec :: l₂ ∧
        Sec.handleRemoveTyre tyres rq rec.id q .ok uR =
          ⟨l₁ ++ l₂, fun j => if j = rec.id then some 1 else rq j, []⟩) ∧
    (∀ (tyres : List Sec.Tyre) (rq : Nat → Option Int) (q : Int) (dR : StoreReply)
      (rec : Sec.Tyre), tyres.Pairwise (fun a b => a.id ≠ b.id) → rec ∈ tyres →
      q < rec.quantity →
      ∃ l₁ l₂, tyres = l₁ ++ rec :: l₂ ∧
        Sec.handleRemoveTyre tyres rq rec.id q dR .ok =
          ⟨l₁ ++ { rec with quantity := rec.quantity - q } :: l₂,
           fun j => if j = rec.id then some 1 else rq j, []⟩) := by
  refine ⟨?_, ?_, ?_, ?_, ?_, ?_⟩
  · intro tyres rq id q dR uR h
    unfold Page.handleRemoveTyre
    have hf : tyres.find? (fun t => t.id == id) = none := by
      rw [List.find?_eq_none]
      intro t ht
      simpa using h t ht
    rw [hf]
  · intro tyres rq q uR rec hpw hmem hq
    obtain ⟨l₁, l₂, hsplit⟩ := List.append_of_mem hmem
    subst hsplit
    refine ⟨l₁, l₂, rfl, ?_⟩
    unfold Page.handleRemoveTyre
    rw [page_find_id _ rec hpw hmem]
    simp only [if_pos hq]
    congr 1
    exact filter_ne_erase (fun t => t.id) l₁ l₂ rec hpw
  · intro tyres rq q dR rec hpw hmem hq
    obtain ⟨l₁, l₂, hsplit⟩ := List.append_of_mem hmem
    subst hsplit
    refine ⟨l₁, l₂, rfl, ?_⟩
    unfold Page.handleRemoveTyre
    rw [page_find_id _ rec hpw hmem]
    simp only [if_neg (by omega : ¬q ≥ rec.quantity)]
    congr 1
    exact map_ite_update (fun t => t.id) (fun t => { t with quantity := rec.quantity - q })
      l₁ l₂ rec hpw
  · intro tyres rq id q dR uR h
    unfold Sec.handleRemoveTyre
    have hf : tyres.find? (fun t => t.id == id) = none := by
      rw [List.find?_eq_none]
      intro t ht
      simpa using h t ht
    rw [hf]
  · intro tyres rq q uR rec hpw hmem hq
    obtain ⟨l₁, l₂, hsplit⟩ := List.append_of_mem hmem
    subst hsplit
    refine ⟨l₁, l₂, rfl, ?_⟩
    unfold Sec.handleRemoveTyre
    rw [sec_find_id _ rec hpw hmem]
    simp only [if_pos hq]
    congr 1
    exact filter_ne_erase (fun t => t.id) l₁ l₂ rec hpw
  · intro tyres rq q dR rec hpw hmem hq
    obtain ⟨l₁, l₂, hsplit⟩ := List.append_of_mem hmem
    subst hsplit
    refine ⟨l₁, l₂, rfl, ?_⟩
    unfold Sec.handleRemoveTyre
    rw [sec_find_id _ rec hpw hmem]
    simp only [if_neg (by omega : ¬q ≥ rec.quantity)]
    congr 1
    exact map_ite_update (fun t => t.id) (fun t => { t with quantity := rec.quantity - q })
      l₁ l₂ rec hpw

/-- C2 at a concrete input: withdrawing 1 from a record of quantity 2 keeps
the record with quantity 1, and withdrawing 5 from the singleton list removes
it; the absent id 9 is a no-op. -/
theorem claim_C2_witness :
    (∃ l₁ l₂, [(⟨1, "205".data, "55".data, "16".data, 2, []⟩ : Page.Tyre)] =
        l₁ ++ (⟨1, "205".data, "55".data, "16".data, 2, []⟩ : Page.Tyre) :: l₂ ∧
      Page.handleRemoveTyre [⟨1, "205".data, "55".data, "16".data, 2, []⟩]
          (fun _ => none) 1 1 StoreReply.ok .ok =
        ⟨l₁ ++ { (⟨1, "205".data, "55".data, "16".data, 2, []⟩ : Page.Tyre) with
            quantity := 2 - 1 } :: l₂,
         fun j => if j = 1 then some 1 else none, []⟩) ∧
    Page.handleRemoveTyre [⟨1, "205".data, "55".data, "16".data, 2, []⟩]
        (fun _ => none) 9 5 StoreReply.ok .ok =
      ⟨[⟨1, "205".data, "55".data, "16".data, 2, []⟩], fun _ => none, []⟩ := by
  constructor
  · exact claim_C2.2.2.1 [⟨1, "205".data, "55".data, "16".data, 2, []⟩] (fun _ => none)
      1 .ok ⟨1, "205".data, "55".data, "16".data, 2, []⟩ (by simp)
      (by simp) (by decide)
  · exact claim_C2.1 [⟨1, "205".data, "55".data, "16".data, 2, []⟩] (fun _ => none)
      9 5 .ok .ok (by decide)

/-- C1: on a list with unique ids and unique keys, adding with a validated
key and delta `n ≥ 1` merges into the record whose key matches (width,
ratio, rim equal; section, in that variant, equal up to case): that
record's quantity grows by exactly `n`, its id is unchanged, and no row is
added; when no record matches, a single new record with quantity `n` is
appended (its section stored uppercased in the section variant). -/
theorem claim_C1 :
    (∀ (tyres : List Page.Tyre) (w r rm q : List Char) (iR : InsertReply) (n : Int)
      (ex : Page.Tyre),
      Page.validateTyreWidth w = true → Page.validateRatio r = true →
      Page.validateRim rm = true → jsParseInt q = some n → 1 ≤ n →
      tyres.Pairwise (fun a b =>
        ¬(a.tyre_width = b.tyre_width ∧ a.ratio = b.ratio ∧ a.rim = b.rim)) →
      tyres.Pairwise (fun a b => a.id ≠ b.id) →
      ex ∈ tyres → ex.tyre_width = w → ex.ratio = r → ex.rim = rm →
      ∃ l₁ l₂, tyres = l₁ ++ ex :: l₂ ∧
        Page.handleAddTyre tyres w r rm q .ok iR =
          ⟨l₁ ++ { ex with quantity := ex.quantity + n } :: l₂, []⟩) ∧
    (∀ (tyres : List Page.Tyre) (w r rm q : List Char) (uR : StoreReply) (n : Int)
      (nid : Nat) (nts : List Char),
      Page.validateTyreWidth w = true → Page.validateRatio r = true →
      Page.validateRim rm = true → jsParseInt q = some n → 1 ≤ n →
      (∀ t ∈ tyres, ¬(t.tyre_width = w ∧ t.ratio = r ∧ t.rim = rm)) →
      Page.handleAddTyre tyres w r rm q uR (.ok nid nts) =
        ⟨tyres ++ [⟨nid, w, r, rm, n, nts⟩], []⟩) ∧
    (∀ (tyres : List Sec.Tyre) (w r rm sc q : List Char) (iR : InsertReply) (n : Int)
      (ex : Sec.Tyre),
      Sec.validateTyreWidth w = true → Sec.validateRatio r = true →
      Sec.validateRim rm = true → Sec.validateSection sc = true →
      jsParseInt q = some n → 1 ≤ n →
      tyres.Pairwise (fun a b =>
        ¬(a.tyre_width = b.tyre_width ∧ a.ratio = b.ratio ∧ a.rim = b.rim ∧
          upperStr a.sect = upperStr b.sect)) →
      tyres.Pairwise (fun a b => a.id ≠ b.id) →
      ex ∈ tyres → ex.tyre_width = w → ex.ratio = r → ex.rim = rm →
      upperStr ex.sect = upperStr sc →
      ∃ l₁ l₂, tyres = l₁ ++ ex :: l₂ ∧
        Sec.handleAddTyre tyres w r rm sc q .ok iR =
          ⟨l₁ ++ { ex with quantity := ex.quantity + n } :: l₂, []⟩) ∧
    (∀ (tyres : List Sec.Tyre) (w r rm sc q : List Char) (uR : StoreReply) (n : Int)
      (nid : Nat) (nts : List Char),
      Sec.validateTyreWidth w = true → Sec.validateRatio r = true →
      Sec.validateRim rm = true → Sec.validateSection sc = true →
      jsParseInt q = some n → 1 ≤ n →
      (∀ t ∈ tyres, ¬(t.tyre_width = w ∧ t.ratio = r ∧ t.rim = rm ∧
        upperStr t.sect = upperStr sc)) →
      Sec.handleAddTyre tyres w r rm sc q uR (.ok nid nts) =
        ⟨tyres ++ [⟨nid, w, r, rm, upperStr sc, n, nts⟩], []⟩) := by
  refine ⟨?_, ?_, ?_, ?_⟩
  · intro tyres w r rm q iR n ex hvw hvr hvm hq h1 hpwk hpwi hmem hw hr hm
    obtain ⟨l₁, l₂, hsplit⟩ := List.append_of_mem hmem
    subst hsplit
    refine ⟨l₁, l₂, rfl, ?_⟩
    rw [page_add_gate _ _ _ _ _ _ _ hvw hvr hvm n hq (by omega),
      page_find_key _ ex w r rm hpwk hmem hw hr hm]
    exact congrArg (fun l => (⟨l, []⟩ : Page.AddResult))
      (map_ite_update (fun t => t.id)
        (fun t => { t with quantity := ex.quantity + n }) l₁ l₂ ex hpwi)
  · intro tyres w r rm q uR n nid nts hvw hvr hvm hq h1 habs
    rw [page_add_gate _ _ _ _ _ _ _ hvw hvr hvm n hq (by omega)]
    have hf : tyres.find? (fun t => t.tyre_width == w && t.ratio == r && t.rim == rm) =
        none := by
      rw [List.find?_eq_none]
      intro t ht
      simpa using habs t ht
    rw [hf]
  · intro tyres w r rm sc q iR n ex hvw hvr hvm hvs hq h1 hpwk hpwi hmem hw hr hm hs
    obtain ⟨l₁, l₂, hsplit⟩ := List.append_of_mem hmem
    subst hsplit
    refine ⟨l₁, l₂, rfl, ?_⟩
    rw [sec_add_gate _ _ _ _ _ _ _ _ hvw hvr hvm hvs n hq (by omega),
      sec_find_key _ ex w r rm sc hpwk hmem hw hr hm hs]
    exact congrArg (fun l => (⟨l, []⟩ : Sec.AddResult))
      (map_ite_update (fun t => t.id)
        (fun t => { t with quantity := ex.quantity + n }) l₁ l₂ ex hpwi)
  · intro tyres w r rm sc q uR n nid nts hvw hvr hvm hvs hq h1 habs
    rw [sec_add_gate _ _ _ _ _ _ _ _ hvw hvr hvm hvs n hq (by omega)]
    have hf : tyres.find? (fun t => t.tyre_width == w && t.ratio == r && t.rim == rm &&
        upperStr t.sect == upperStr sc) = none := by
      rw [List.find?_eq_none]
      intro t ht
      simpa using habs t ht
    rw [hf]

/-- C1 at a concrete input: adding 3 to the existing 205/55/16 key yields a
single record of quantity 5 and no new row; adding a fresh A1-sectioned key
appends one record with quantity 3, section uppercased. -/
theorem claim_C1_witness :
    (∃ l₁ l₂, [(⟨1, "205".data, "55".data, "16".data, 2, []⟩ : Page.Tyre)] =
        l₁ ++ (⟨1, "205".data, "55".data, "16".data, 2, []⟩ : Page.Tyre) :: l₂ ∧
      Page.handleAddTyre [⟨1, "205".data, "55".data, "16".data, 2, []⟩]
          "205".data "55".data "16".data "3".data .ok (.ok 9 []) =
        ⟨l₁ ++ { (⟨1, "205".data, "55".data, "16".data, 2, []⟩ : Page.Tyre) with
            quantity := 2 + 3 } :: l₂, []⟩) ∧
    Sec.handleAddTyre [] "195".data "60".data "15".data "a1".data "3".data .ok
        (.ok 4 []) =
      ⟨[⟨4, "195".data, "60".data, "15".data, upperStr "a1".data, 3, []⟩], []⟩ := by
  constructor
  · exact claim_C1.1 [⟨1, "205".data, "55".data, "16".data, 2, []⟩]
      "205".data "55".data "16".data "3".data (.ok 9 []) 3
      ⟨1, "205".data, "55".data, "16".data, 2, []⟩
      (by decide) (by decide) (by decide) (by decide) (by decide)
      (by simp) (by simp) (by simp) rfl rfl rfl
  · exact claim_C1.2.2.2 [] "195".data "60".data "15".data "a1".data "3".data .ok 3 4 []
      (by decide) (by decide) (by decide) (by decide) (by decide) (by decide)
      (by simp)

/-- C3: "at most one record per distinct key (case-insensitive on section)"
is preserved by both handlers, for every input and store reply: an add
either rewrites quantities in place, keeps the list, or appends a key that
the scan just proved absent; a remove only filters or rewrites quantities. -/
theorem claim_C3 :
    (∀ (tyres : List Page.Tyre) (w r rm q : List Char) (uR : StoreReply)
      (iR : InsertReply),
      tyres.Pairwise (fun a b =>
        ¬(a.tyre_width = b.tyre_width ∧ a.ratio = b.ratio ∧ a.rim = b.rim)) →
      (Page.handleAddTyre tyres w r rm q uR iR).tyres.Pairwise (fun a b =>
        ¬(a.tyre_width = b.tyre_width ∧ a.ratio = b.ratio ∧ a.rim = b.rim))) ∧
    (∀ (tyres : List Page.Tyre) (rq : Nat → Option Int) (id : Nat) (q : Int)
      (dR uR : StoreReply),
      tyres.Pairwise (fun a b =>
        ¬(a.tyre_width = b.tyre_width ∧ a.ratio = b.ratio ∧ a.rim = b.rim)) →
      (Page.handleRemoveTyre tyres rq id q dR uR).tyres.Pairwise (fun a b =>
        ¬(a.tyre_width = b.tyre_width ∧ a.ratio = b.ratio ∧ a.rim = b.rim))) ∧
    (∀ (tyres : List Sec.Tyre) (w r rm sc q : List Char) (uR : StoreReply)
      (iR : InsertReply),
      tyres.Pairwise (fun a b =>
        ¬(a.tyre_width = b.tyre_width ∧ a.ratio = b.ratio ∧ a.rim = b.rim ∧
          upperStr a.sect = upperStr b.sect)) →
      (Sec.handleAddTyre tyres w r rm sc q uR iR).tyres.Pairwise (fun a b =>
        ¬(a.tyre_width = b.tyre_width ∧ a.ratio = b.ratio ∧ a.rim = b.rim ∧
          upperStr a.sect = upperStr b.sect))) ∧
    (∀ (tyres : List Sec.Tyre) (rq : Nat → Option Int) (id : Nat) (q : Int)
      (dR uR : StoreReply),
      tyres.Pairwise (fun a b =>
        ¬(a.tyre_width = b.tyre_width ∧ a.ratio = b.ratio ∧ a.rim = b.rim ∧
          upperStr a.sect = upperStr b.sect)) →
      (Sec.handleRemoveTyre tyres rq id q dR uR).tyres.Pairwise (fun a b =>
        ¬(a.tyre_width = b.tyre_width ∧ a.ratio = b.ratio ∧ a.rim = b.rim ∧
          upperStr a.sect = upperStr b.sect))) := by
  refine ⟨?_, ?_, ?_, ?_⟩
  · intro tyres w r rm q uR iR h
    unfold Page.handleAddTyre
    split
    · exact h
    split
    · exact h
    split
    · exact h
    split
    · exact h
    next n hq =>
      split
      · exact h
      split
      next ex hfind =>
        split
        · exact h
        · have hfields : ∀ x : Page.Tyre,
              ((if x.id == ex.id then { x with quantity := ex.quantity + n } else x) :
                Page.Tyre).tyre_width = x.tyre_width ∧
              ((if x.id == ex.id then { x with quantity := ex.quantity + n } else x) :
                Page.Tyre).ratio = x.ratio ∧
              ((if x.id == ex.id then { x with quantity := ex.quantity + n } else x) :
                Page.Tyre).rim = x.rim := by
            intro x
            by_cases hx : (x.id == ex.id) = true <;> simp [hx]
          refine List.Pairwise.map _ (fun a b hab hk => hab ?_) h
          rcases hfields a with ⟨ha1, ha2, ha3⟩
          rcases hfields b with ⟨hb1, hb2, hb3⟩
          rw [ha1, ha2, ha3, hb1, hb2, hb3] at hk
          exact hk
      next hfind =>
        split
        · exact h
        next nid nts =>
          rw [List.pairwise_append]
          refine ⟨h, by simp, ?_⟩
          intro a ha b hb hk
          rw [List.mem_singleton] at hb
          subst hb
          have hnp := List.find?_eq_none.mp hfind a ha
          apply hnp
          simp only at hk
          simp [hk.1, hk.2.1, hk.2.2]
  · intro tyres rq id q dR uR h
    unfold Page.handleRemoveTyre
    split
    · exact h
    next rec hfind =>
      split
      · split
        · exact h
        · exact List.Pairwise.sublist (List.filter_sublist _) h
      · split
        · exact h
        · have hfields : ∀ x : Page.Tyre,
              ((if x.id == id then { x with quantity := rec.quantity - q } else x) :
                Page.Tyre).tyre_width = x.tyre_width ∧
              ((if x.id == id then { x with quantity := rec.quantity - q } else x) :
                Page.Tyre).ratio = x.ratio ∧
              ((if x.id == id then { x with quantity := rec.quantity - q } else x) :
                Page.Tyre).rim = x.rim := by
            intro x
            by_cases hx : (x.id == id) = true <;> simp [hx]
          refine List.Pairwise.map _ (fun a b hab hk => hab ?_) h
          rcases hfields a with ⟨ha1, ha2, ha3⟩
          rcases hfields b with ⟨hb1, hb2, hb3⟩
          rw [ha1, ha2, ha3, hb1, hb2, hb3] at hk
          exact hk
  · intro tyres w r rm sc q uR iR h
    unfold Sec.handleAddTyre
    split
    · exact h
    split
    · exact h
    split
    · exact h
    split
    · exact h
    split
    · exact h
    next n hq =>
      split
      · exact h
      split
      next ex hfind =>
        split
        · exact h
        · have hfields : ∀ x : Sec.Tyre,
              ((if x.id == ex.id then { x with quantity := ex.quantity + n } else x) :
                Sec.Tyre).tyre_width = x.tyre_width ∧
              ((if x.id == ex.id then { x with quantity := ex.quantity + n } else x) :
                Sec.Tyre).ratio = x.ratio ∧
              ((if x.id == ex.id then { x with quantity := ex.quantity + n } else x) :
                Sec.Tyre).rim = x.rim ∧
              ((if x.id == ex.id then { x with quantity := ex.quantity + n } else x) :
                Sec.Tyre).sect = x.sect := by
            intro x
            by_cases hx : (x.id == ex.id) = true <;> simp [hx]
          refine List.Pairwise.map _ (fun a b hab hk => hab ?_) h
          rcases hfields a with ⟨ha1, ha2, ha3, ha4⟩
          rcases hfields b with ⟨hb1, hb2, hb3, hb4⟩
          rw [ha1, ha2, ha3, ha4, hb1, hb2, hb3, hb4] at hk
          exact hk
      next hfind =>
        split
        · exact h
        next nid nts =>
          rw [List.pairwise_append]
          refine ⟨h, by simp, ?_⟩
          intro a ha b hb hk
          rw [List.mem_singleton] at hb
          subst hb
          have hnp := List.find?_eq_none.mp hfind a ha
          apply hnp
          simp only at hk
          rw [upperStr_upperStr] at hk
          simp [hk.1, hk.2.1, hk.2.2.1, hk.2.2.2]
  · intro tyres rq id q dR uR h
    unfold Sec.handleRemoveTyre
    split
    · exact h
    next rec hfind =>
      split
      · split
        · exact h
        · exact List.Pairwise.sublist (List.filter_sublist _) h
      · split
        · exact h
        · have hfields : ∀ x : Sec.Tyre,
              ((if x.id == id then { x with quantity := rec.quantity - q } else x) :
                Sec.Tyre).tyre_width = x.tyre_width ∧
              ((if x.id == id then { x with quantity := rec.quantity - q } else x) :
                Sec.Tyre).ratio = x.ratio ∧
              ((if x.id == id then { x with quantity := rec.quantity - q } else x) :
                Sec.Tyre).rim = x.rim ∧
              ((if x.id == id then { x with quantity := rec.quantity - q } else x) :
                Sec.Tyre).sect = x.sect := by
            intro x
            by_cases hx : (x.id == id) = true <;> simp [hx]
          refine List.Pairwise.map _ (fun a b hab hk => hab ?_) h
          rcases hfields a with ⟨ha1, ha2, ha3, ha4⟩
          rcases hfields b with ⟨hb1, hb2, hb3, hb4⟩
          rw [ha1, ha2, ha3, ha4, hb1, hb2, hb3, hb4] at hk
          exact hk

/-- C3 at a concrete input: a two-record unique-keyed list stays unique-keyed
after adding to one key (case-insensitively in the section variant) and
after a removal. -/
theorem claim_C3_witness :
    (Sec.handleAddTyre
      [⟨1, "205".data, "55".data, "16".data, "A1".data, 2, []⟩,
       ⟨2, "195".data, "60".data, "15".data, "B2".data, 1, []⟩]
      "205".data "55".data "16".data "a1".data "3".data .ok (.ok 9 [])).tyres.Pairwise
      (fun a b =>
        ¬(a.tyre_width = b.tyre_width ∧ a.ratio = b.ratio ∧ a.rim = b.rim ∧
          upperStr a.sect = upperStr b.sect)) ∧
    (Page.handleRemoveTyre
      [⟨1, "205".data, "55".data, "16".data, 2, []⟩] (fun _ => none) 1 1 .ok
      .ok).tyres.Pairwise (fun a b =>
        ¬(a.tyre_width = b.tyre_width ∧ a.ratio = b.ratio ∧ a.rim = b.rim)) := by
  constructor
  · exact claim_C3.2.2.1
      [⟨1, "205".data, "55".data, "16".data, "A1".data, 2, []⟩,
       ⟨2, "195".data, "60".data, "15".data, "B2".data, 1, []⟩]
      "205".data "55".data "16".data "a1".data "3".data .ok (.ok 9 []) (by decide)
  · exact claim_C3.2.1 [⟨1, "205".data, "55".data, "16".data, 2, []⟩] (fun _ => none)
      1 1 .ok .ok (by decide)

/-- C4: every stored quantity stays `≥ 1` through both handlers, for any
store reply: an accepted add applies a delta `≥ 1` (smaller deltas are
rejected before any state change), a removal of `q ≥ current` deletes the
row instead of storing 0, and a smaller removal leaves `current − q ≥ 1`. -/
theorem claim_C4 :
    (∀ (tyres : List Page.Tyre) (w r rm q : List Char) (uR : StoreReply)
      (iR : InsertReply), (∀ t ∈ tyres, 1 ≤ t.quantity) →
      ∀ t ∈ (Page.handleAddTyre tyres w r rm q uR iR).tyres, 1 ≤ t.quantity) ∧
    (∀ (tyres : List Page.Tyre) (rq : Nat → Option Int) (id : Nat) (q : Int)
      (dR uR : StoreReply), (∀ t ∈ tyres, 1 ≤ t.quantity) →
      ∀ t ∈ (Page.handleRemoveTyre tyres rq id q dR uR).tyres, 1 ≤ t.quantity) ∧
    (∀ (tyres : List Sec.Tyre) (w r rm sc q : List Char) (uR : StoreReply)
      (iR : InsertReply), (∀ t ∈ tyres, 1 ≤ t.quantity) →
      ∀ t ∈ (Sec.handleAddTyre tyres w r rm sc q uR iR).tyres, 1 ≤ t.quantity) ∧
    (∀ (tyres : List Sec.Tyre) (rq : Nat → Option Int) (id : Nat) (q : Int)
      (dR uR : StoreReply), (∀ t ∈ tyres, 1 ≤ t.quantity) →
      ∀ t ∈ (Sec.handleRemoveTyre tyres rq id q dR uR).tyres, 1 ≤ t.quantity) := by
  refine ⟨?_, ?_, ?_, ?_⟩
  · intro tyres w r rm q uR iR h
    unfold Page.handleAddTyre
    split
    · exact h
    split
    · exact h
    split
    · exact h
    split
    · exact h
    next n hq =>
      split
      · exact h
      next hn =>
        split
        next ex hfind =>
          split
          · exact h
          · intro t ht
            rw [List.mem_map] at ht
            obtain ⟨x, hx, rfl⟩ := ht
            by_cases hxe : (x.id == ex.id) = true
            · have hex : ex ∈ tyres := List.mem_of_find?_eq_some hfind
              have h1 := h ex hex
              simp only [hxe, if_true]
              show 1 ≤ ex.quantity + n
              omega
            · simp only [hxe, if_false]
              exact h x hx
        next hfind =>
          split
          · exact h
          next nid nts =>
            intro t ht
            rw [List.mem_append] at ht
            rcases ht with ht | ht
            · exact h t ht
            · rw [List.mem_singleton] at ht
              subst ht
              show 1 ≤ n
              omega
  · intro tyres rq id q dR uR h
    unfold Page.handleRemoveTyre
    split
    · exact h
    next rec hfind =>
      split
      next hge =>
        split
        · exact h
        · intro t ht
          exact h t (List.mem_of_mem_filter ht)
      next hlt =>
        split
        · exact h
        · intro t ht
          rw [List.mem_map] at ht
          obtain ⟨x, hx, rfl⟩ := ht
          by_cases hxe : (x.id == id) = true
          · simp only [hxe, if_true]
            show 1 ≤ rec.quantity - q
            omega
          · simp only [hxe, if_false]
            exact h x hx
  · intro tyres w r rm sc q uR iR h
    unfold Sec.handleAddTyre
    split
    · exact h
    split
    · exact h
    split
    · exact h
    split
    · exact h
    split
    · exact h
    next n hq =>
      split
      · exact h
      next hn =>
        split
        next ex hfind =>
          split
          · exact h
          · intro t ht
            rw [List.mem_map] at ht
            obtain ⟨x, hx, rfl⟩ := ht
            by_cases hxe : (x.id == ex.id) = true
            · have hex : ex ∈ tyres := List.mem_of_find?_eq_some hfind
              have h1 := h ex hex
              simp only [hxe, if_true]
              show 1 ≤ ex.quantity + n
              omega
            · simp only [hxe, if_false]
              exact h x hx
        next hfind =>
          split
          · exact h
          next nid nts =>
            intro t ht
            rw [List.mem_append] at ht
            rcases ht with ht | ht
            · exact h t ht
            · rw [List.mem_singleton] at ht
              subst ht
              show 1 ≤ n
              omega
  · intro tyres rq id q dR uR h
    unfold Sec.handleRemoveTyre
    split
    · exact h
    next rec hfind =>
      split
      next hge =>
        split
        · exact h
        · intro t ht
          exact h t (List.mem_of_mem_filter ht)
      next hlt =>
        split
        · exact h
        · intro t ht
          rw [List.mem_map] at ht
          obtain ⟨x, hx, rfl⟩ := ht
          by_cases hxe : (x.id == id) = true
          · simp only [hxe, if_true]
            show 1 ≤ rec.quantity - q
            omega
          · simp only [hxe, if_false]
            exact h x hx

/-- C4 at a concrete input: quantities stay `≥ 1` after an add that merges
and after a removal of 1 from a record of quantity 2. -/
theorem claim_C4_witness :
    (∀ t ∈ (Page.handleAddTyre [⟨1, "205".data, "55".data, "16".data, 2, []⟩]
      "205".data "55".data "16".data "3".data .ok (.ok 9 [])).tyres, 1 ≤ t.quantity) ∧
    (∀ t ∈ (Sec.handleRemoveTyre
      [⟨1, "205".data, "55".data, "16".data, "A1".data, 2, []⟩] (fun _ => none) 1 1
      .ok .ok).tyres, 1 ≤ t.quantity) := by
  constructor
  · exact claim_C4.1 [⟨1, "205".data, "55".data, "16".data, 2, []⟩]
      "205".data "55".data "16".data "3".data .ok (.ok 9 []) (by decide)
  · exact claim_C4.2.2.2 [⟨1, "205".data, "55".data, "16".data, "A1".data, 2, []⟩]
      (fun _ => none) 1 1 .ok .ok (by decide)

/-- C6: with the other fields valid, the add fails with the quantity error
and leaves the list unchanged — before any store call, i.e. for every store
reply — exactly when the quantity string does not parse (`parseInt` `NaN`)
or parses below 1; when it parses to `n ≥ 1`, `n` is the delta applied: the
total stock rises by exactly `n` and no error is shown. -/
theorem claim_C6 :
    (∀ (tyres : List Page.Tyre) (w r rm q : List Char) (uR : StoreReply)
      (iR : InsertReply),
      Page.validateTyreWidth w = true → Page.validateRatio r = true →
      Page.validateRim rm = true → jsParseInt q = none →
      Page.handleAddTyre tyres w r rm q uR iR = ⟨tyres, quantityErrMsg⟩) ∧
    (∀ (tyres : List Page.Tyre) (w r rm q : List Char) (uR : StoreReply)
      (iR : InsertReply) (n : Int),
      Page.validateTyreWidth w = true → Page.validateRatio r = true →
      Page.validateRim rm = true → jsParseInt q = some n → n < 1 →
      Page.handleAddTyre tyres w r rm q uR iR = ⟨tyres, quantityErrMsg⟩) ∧
    (∀ (tyres : List Page.Tyre) (w r rm q : List Char) (iR : InsertReply) (n : Int)
      (ex : Page.Tyre),
      Page.validateTyreWidth w = true → Page.validateRatio r = true →
      Page.validateRim rm = true → jsParseInt q = some n → 1 ≤ n →
      tyres.Pairwise (fun a b =>
        ¬(a.tyre_width = b.tyre_width ∧ a.ratio = b.ratio ∧ a.rim = b.rim)) →
      tyres.Pairwise (fun a b => a.id ≠ b.id) →
      ex ∈ tyres → ex.tyre_width = w → ex.ratio = r → ex.rim = rm →
      ((Page.handleAddTyre tyres w r rm q .ok iR).tyres.map Page.Tyre.quantity).sum =
        (tyres.map Page.Tyre.quantity).sum + n ∧
      (Page.handleAddTyre tyres w r rm q .ok iR).error = []) ∧
    (∀ (tyres : List Page.Tyre) (w r rm q : List Char) (uR : StoreReply) (n : Int)
      (nid : Nat) (nts : List Char),
      Page.validateTyreWidth w = true → Page.validateRatio r = true →
      Page.validateRim rm = true → jsParseInt q = some n → 1 ≤ n →
      (∀ t ∈ tyres, ¬(t.tyre_width = w ∧ t.ratio = r ∧ t.rim = rm)) →
      ((Page.handleAddTyre tyres w r rm q uR (.ok nid nts)).tyres.map
        Page.Tyre.quantity).sum = (tyres.map Page.Tyre.quantity).sum + n ∧
      (Page.handleAddTyre tyres w r rm q uR (.ok nid nts)).error = []) ∧
    (∀ (tyres : List Sec.Tyre) (w r rm sc q : List Char) (uR : StoreReply)
      (iR : InsertReply),
      Sec.validateTyreWidth w = true → Sec.validateRatio r = true →
      Sec.validateRim rm = true → Sec.validateSection sc = true → jsParseInt q = none →
      Sec.handleAddTyre tyres w r rm sc q uR iR = ⟨tyres, quantityErrMsg⟩) ∧
    (∀ (tyres : List Sec.Tyre) (w r rm sc q : List Char) (uR : StoreReply)
      (iR : InsertReply) (n : Int),
      Sec.validateTyreWidth w = true → Sec.validateRatio r = true →
      Sec.validateRim rm = true → Sec.validateSection sc = true →
      jsParseInt q = some n → n < 1 →
      Sec.handleAddTyre tyres w r rm sc q uR iR = ⟨tyres, quantityErrMsg⟩) ∧
    (∀ (tyres : List Sec.Tyre) (w r rm sc q : List Char) (iR : InsertReply) (n : Int)
      (ex : Sec.Tyre),
      Sec.validateTyreWidth w = true → Sec.validateRatio r = true →
      Sec.validateRim rm = true → Sec.validateSection sc = true →
      jsParseInt q = some n → 1 ≤ n →
      tyres.Pairwise (fun a b =>
        ¬(a.tyre_width = b.tyre_width ∧ a.ratio = b.ratio ∧ a.rim = b.rim ∧
          upperStr a.sect = upperStr b.sect)) →
      tyres.Pairwise (fun a b => a.id ≠ b.id) →
      ex ∈ tyres → ex.tyre_width = w → ex.ratio = r → ex.rim = rm →
      upperStr ex.sect = upperStr sc →
      ((Sec.handleAddTyre tyres w r rm sc q .ok iR).tyres.map Sec.Tyre.quantity).sum =
        (tyres.map Sec.Tyre.quantity).sum + n ∧
      (Sec.handleAddTyre tyres w r rm sc q .ok iR).error = []) ∧
    (∀ (tyres : List Sec.Tyre) (w r rm sc q : List Char) (uR : StoreReply) (n : Int)
      (nid : Nat) (nts : List Char),
      Sec.validateTyreWidth w = true → Sec.validateRatio r = true →
      Sec.validateRim rm = true → Sec.validateSection sc = true →
      jsParseInt q = some n → 1 ≤ n →
      (∀ t ∈ tyres, ¬(t.tyre_width = w ∧ t.ratio = r ∧ t.rim = rm ∧
        upperStr t.sect = upperStr sc)) →
      ((Sec.handleAddTyre tyres w r rm sc q uR (.ok nid nts)).tyres.map
        Sec.Tyre.quantity).sum = (tyres.map Sec.Tyre.quantity).sum + n ∧
      (Sec.handleAddTyre tyres w r rm sc q uR (.ok nid nts)).error = []) := by
  refine ⟨?_, ?_, ?_, ?_, ?_, ?_, ?_, ?_⟩
  · intro tyres w r rm q uR iR hvw hvr hvm hq
    unfold Page.handleAddTyre
    rw [if_neg (by simp [hvw]), if_neg (by simp [hvr]), if_neg (by simp [hvm]), hq]
  · intro tyres w r rm q uR iR n hvw hvr hvm hq hn
    unfold Page.handleAddTyre
    rw [if_neg (by simp [hvw]), if_neg (by simp [hvr]), if_neg (by simp [hvm]), hq]
    simp only [if_pos hn]
  · intro tyres w r rm q iR n ex hvw hvr hvm hq h1 hpwk hpwi hmem hw hr hm
    obtain ⟨l₁, l₂, hsplit⟩ := List.append_of_mem hmem
    subst hsplit
    rw [page_add_gate _ _ _ _ _ _ _ hvw hvr hvm n hq (by omega),
      page_find_key _ ex w r rm hpwk hmem hw hr hm]
    constructor
    · show ((((l₁ ++ ex :: l₂)).map (fun t =>
          if t.id == ex.id then { t with quantity := ex.quantity + n } else t)).map
          Page.Tyre.quantity).sum =
        (((l₁ ++ ex :: l₂)).map Page.Tyre.quantity).sum + n
      rw [map_ite_update (fun t => t.id)
        (fun t => { t with quantity := ex.quantity + n }) l₁ l₂ ex hpwi]
      simp [List.sum_append]
      ring
    · rfl
  · intro tyres w r rm q uR n nid nts hvw hvr hvm hq h1 habs
    rw [page_add_gate _ _ _ _ _ _ _ hvw hvr hvm n hq (by omega)]
    have hf : tyres.find? (fun t => t.tyre_width == w && t.ratio == r && t.rim == rm) =
        none := by
      rw [List.find?_eq_none]
      intro t ht
      simpa using habs t ht
    rw [hf]
    constructor
    · show (((tyres ++ [(⟨nid, w, r, rm, n, nts⟩ : Page.Tyre)]).map Page.Tyre.quantity)).sum =
        ((tyres.map Page.Tyre.quantity)).sum + n
      simp
    · rfl
  · intro tyres w r rm sc q uR iR hvw hvr hvm hvs hq
    unfold Sec.handleAddTyre
    rw [if_neg (by simp [hvw]), if_neg (by simp [hvr]), if_neg (by simp [hvm]),
      if_neg (by simp [hvs]), hq]
  · intro tyres w r rm sc q uR iR n hvw hvr hvm hvs hq hn
    unfold Sec.handleAddTyre
    rw [if_neg (by simp [hvw]), if_neg (by simp [hvr]), if_neg (by simp [hvm]),
      if_neg (by simp [hvs]), hq]
    simp only [if_pos hn]
  · intro tyres w r rm sc q iR n ex hvw hvr hvm hvs hq h1 hpwk hpwi hmem hw hr hm hs
    obtain ⟨l₁, l₂, hsplit⟩ := List.append_of_mem hmem
    subst hsplit
    rw [sec_add_gate _ _ _ _ _ _ _ _ hvw hvr hvm hvs n hq (by omega),
      sec_find_key _ ex w r rm sc hpwk hmem hw hr hm hs]
    constructor
    · show ((((l₁ ++ ex :: l₂)).map (fun t =>
          if t.id == ex.id then { t with quantity := ex.quantity + n } else t)).map
          Sec.Tyre.quantity).sum =
        (((l₁ ++ ex :: l₂)).map Sec.Tyre.quantity).sum + n
      rw [map_ite_update (fun t => t.id)
        (fun t => { t with quantity := ex.quantity + n }) l₁ l₂ ex hpwi]
      simp [List.sum_append]
      ring
    · rfl
  · intro tyres w r rm sc q uR n nid nts hvw hvr hvm hvs hq h1 habs
    rw [sec_add_gate _ _ _ _ _ _ _ _ hvw hvr hvm hvs n hq (by omega)]
    have hf : tyres.find? (fun t => t.tyre_width == w && t.ratio == r && t.rim == rm &&
        upperStr t.sect == upperStr sc) = none := by
      rw [List.find?_eq_none]
      intro t ht
      simpa using habs t ht
    rw [hf]
    constructor
    · show (((tyres ++ [(⟨nid, w, r, rm, upperStr sc, n, nts⟩ : Sec.Tyre)]).map
          Sec.Tyre.quantity)).sum = ((tyres.map Sec.Tyre.quantity)).sum + n
      simp
    · rfl

/-- C6 at a concrete input: the non-numeric quantity `'abc'` and the
non-positive `'0'` are rejected with the quantity error and an unchanged
list even when the store would fail, while `'2.5'` parses to delta 2. -/
theorem claim_C6_witness :
    Page.handleAddTyre [⟨1, "205".data, "55".data, "16".data, 2, []⟩]
        "205".data "55".data "16".data "abc".data (.fail "boom".data)
        (.fail "boom".data) =
      ⟨[⟨1, "205".data, "55".data, "16".data, 2, []⟩], quantityErrMsg⟩ ∧
    Sec.handleAddTyre [] "195".data "60".data "15".data "a1".data "0".data
        (.fail "boom".data) (.fail "boom".data) = ⟨[], quantityErrMsg⟩ ∧
    ((Page.handleAddTyre [⟨1, "205".data, "55".data, "16".data, 2, []⟩]
        "205".data "55".data "16".data "2.5".data .ok (.ok 9 [])).tyres.map
      Page.Tyre.quantity).sum =
      ([(⟨1, "205".data, "55".data, "16".data, 2, []⟩ : Page.Tyre)].map
        Page.Tyre.quantity).sum + 2 := by
  refine ⟨?_, ?_, ?_⟩
  · exact claim_C6.1 [⟨1, "205".data, "55".data, "16".data, 2, []⟩]
      "205".data "55".data "16".data "abc".data (.fail "boom".data)
      (.fail "boom".data) (by decide) (by decide) (by decide) (by decide)
  · exact claim_C6.2.2.2.2.2.1 [] "195".data "60".data "15".data "a1".data "0".data
      (.fail "boom".data) (.fail "boom".data) 0 (by decide) (by decide) (by decide)
      (by decide) (by decide) (by decide)
  · exact (claim_C6.2.2.1 [⟨1, "205".data, "55".data, "16".data, 2, []⟩]
      "205".data "55".data "16".data "2.5".data (.ok 9 []) 2
      ⟨1, "205".data, "55".data, "16".data, 2, []⟩
      (by decide) (by decide) (by decide) (by decide) (by decide) (by simp) (by simp)
      (by simp) rfl rfl rfl).1

/-- C9: when a store call fails the in-memory list is exactly as before: on
the add path the store's message is shown as the form error, on the remove
path the failure is only written to the console log — the removal-quantity
state is not even reset — and no user-visible error state exists. -/
theorem claim_C9 :
    (∀ (tyres : List Page.Tyre) (w r rm q : List Char) (iR : InsertReply)
      (msg : List Char) (n : Int) (ex : Page.Tyre),
      Page.validateTyreWidth w = true → Page.validateRatio r = true →
      Page.validateRim rm = true → jsParseInt q = some n → 1 ≤ n →
      tyres.Pairwise (fun a b =>
        ¬(a.tyre_width = b.tyre_width ∧ a.ratio = b.ratio ∧ a.rim = b.rim)) →
      ex ∈ tyres → ex.tyre_width = w → ex.ratio = r → ex.rim = rm →
      Page.handleAddTyre tyres w r rm q (.fail msg) iR = ⟨tyres, msg⟩) ∧
    (∀ (tyres : List Page.Tyre) (w r rm q : List Char) (uR : StoreReply)
      (msg : List Char) (n : Int),
      Page.validateTyreWidth w = true → Page.validateRatio r = true →
      Page.validateRim rm = true → jsParseInt q = some n → 1 ≤ n →
      (∀ t ∈ tyres, ¬(t.tyre_width = w ∧ t.ratio = r ∧ t.rim = rm)) →
      Page.handleAddTyre tyres w r rm q uR (.fail msg) = ⟨tyres, msg⟩) ∧
    (∀ (tyres : List Page.Tyre) (rq : Nat → Option Int) (q : Int) (uR : StoreReply)
      (msg : List Char) (rec : Page.Tyre),
      tyres.Pairwise (fun a b => a.id ≠ b.id) → rec ∈ tyres → q ≥ rec.quantity →
      Page.handleRemoveTyre tyres rq rec.id q (.fail msg) uR =
        ⟨tyres, rq, [(deleteLogMsg, msg)]⟩) ∧
    (∀ (tyres : List Page.Tyre) (rq : Nat → Option Int) (q : Int) (dR : StoreReply)
      (msg : List Char) (rec : Page.Tyre),
      tyres.Pairwise (fun a b => a.id ≠ b.id) → rec ∈ tyres → q < rec.quantity →
      Page.handleRemoveTyre tyres rq rec.id q dR (.fail msg) =
        ⟨tyres, rq, [(updateLogMsg, msg)]⟩) ∧
    (∀ (tyres : List Sec.Tyre) (w r rm sc q : List Char) (iR : InsertReply)
      (msg : List Char) (n : Int) (ex : Sec.Tyre),
      Sec.validateTyreWidth w = true → Sec.validateRatio r = true →
      Sec.validateRim rm = true → Sec.validateSection sc = true →
      jsParseInt q = some n → 1 ≤ n →
      tyres.Pairwise (fun a b =>
        ¬(a.tyre_width = b.tyre_width ∧ a.ratio = b.ratio ∧ a.rim = b.rim ∧
          upperStr a.sect = upperStr b.sect)) →
      ex ∈ tyres → ex.tyre_width = w → ex.ratio = r → ex.rim = rm →
      upperStr ex.sect = upperStr sc →
      Sec.handleAddTyre tyres w r rm sc q (.fail msg) iR = ⟨tyres, msg⟩) ∧
    (∀ (tyres : List Sec.Tyre) (w r rm sc q : List Char) (uR : StoreReply)
      (msg : List Char) (n : Int),
      Sec.validateTyreWidth w = true → Sec.validateRatio r = true →
      Sec.validateRim rm = true → Sec.validateSection sc = true →
      jsParseInt q = some n → 1 ≤ n →
      (∀ t ∈ tyres, ¬(t.tyre_width = w ∧ t.ratio = r ∧ t.rim = rm ∧
        upperStr t.sect = upperStr sc)) →
      Sec.handleAddTyre tyres w r rm sc q uR (.fail msg) = ⟨tyres, msg⟩) ∧
    (∀ (tyres : List Sec.Tyre) (rq : Nat → Option Int) (q : Int) (uR : StoreReply)
      (msg : List Char) (rec : Sec.Tyre),
      tyres.Pairwise (fun a b => a.id ≠ b.id) → rec ∈ tyres → q ≥ rec.quantity →
      Sec.handleRemoveTyre tyres rq rec.id q (.fail msg) uR =
        ⟨tyres, rq, [(deleteLogMsg, msg)]⟩) ∧
    (∀ (tyres : List Sec.Tyre) (rq : Nat → Option Int) (q : Int) (dR : StoreReply)
      (msg : List Char) (rec : Sec.Tyre),
      tyres.Pairwise (fun a b => a.id ≠ b.id) → rec ∈ tyres → q < rec.quantity →
      Sec.handleRemoveTyre tyres rq rec.id q dR (.fail msg) =
        ⟨tyres, rq, [(updateLogMsg, msg)]⟩) := by
  refine ⟨?_, ?_, ?_, ?_, ?_, ?_, ?_, ?_⟩
  · intro tyres w r rm q iR msg n ex hvw hvr hvm hq h1 hpwk hmem hw hr hm
    rw [page_add_gate _ _ _ _ _ _ _ hvw hvr hvm n hq (by omega),
      page_find_key _ ex w r rm hpwk hmem hw hr hm]
  · intro tyres w r rm q uR msg n hvw hvr hvm hq h1 habs
    rw [page_add_gate _ _ _ _ _ _ _ hvw hvr hvm n hq (by omega)]
    have hf : tyres.find? (fun t => t.tyre_width == w && t.ratio == r && t.rim == rm) =
        none := by
      rw [List.find?_eq_none]
      intro t ht
      simpa using habs t ht
    rw [hf]
  · intro tyres rq q uR msg rec hpw hmem hq
    unfold Page.handleRemoveTyre
    rw [page_find_id _ rec hpw hmem]
    simp only [if_pos hq]
  · intro tyres rq q dR msg rec hpw hmem hq
    unfold Page.handleRemoveTyre
    rw [page_find_id _ rec hpw hmem]
    simp only [if_neg (by omega : ¬q ≥ rec.quantity)]
  · intro tyres w r rm sc q iR msg n ex hvw hvr hvm hvs hq h1 hpwk hmem hw hr hm hs
    rw [sec_add_gate _ _ _ _ _ _ _ _ hvw hvr hvm hvs n hq (by omega),
      sec_find_key _ ex w r rm sc hpwk hmem hw hr hm hs]
  · intro tyres w r rm sc q uR msg n hvw hvr hvm hvs hq h1 habs
    rw [sec_add_gate _ _ _ _ _ _ _ _ hvw hvr hvm hvs n hq (by omega)]
    have hf : tyres.find? (fun t => t.tyre_width == w && t.ratio == r && t.rim == rm &&
        upperStr t.sect == upperStr sc) = none := by
      rw [List.find?_eq_none]
      intro t ht
      simpa using habs t ht
    rw [hf]
  · intro tyres rq q uR msg rec hpw hmem hq
    unfold Sec.handleRemoveTyre
    rw [sec_find_id _ rec hpw hmem]
    simp only [if_pos hq]
  · intro tyres rq q dR msg rec hpw hmem hq
    unfold Sec.handleRemoveTyre
    rw [sec_find_id _ rec hpw hmem]
    simp only [if_neg (by omega : ¬q ≥ rec.quantity)]

/-- C9 at a concrete input: a failed update on the add path surfaces the
store message with an unchanged list, and a failed delete on the remove path
only logs, leaving list and removal inputs untouched. -/
theorem claim_C9_witness :
    Page.handleAddTyre [⟨1, "205".data, "55".data, "16".data, 2, []⟩]
        "205".data "55".data "16".data "3".data (.fail "down".data) (.ok 9 []) =
      ⟨[⟨1, "205".data, "55".data, "16".data, 2, []⟩], "down".data⟩ ∧
    Page.handleRemoveTyre [⟨1, "205".data, "55".data, "16".data, 2, []⟩]
        (fun _ => none) 1 5 (.fail "down".data) .ok =
      ⟨[⟨1, "205".data, "55".data, "16".data, 2, []⟩], fun _ => none,
       [(deleteLogMsg, "down".data)]⟩ := by
  constructor
  · exact claim_C9.1 [⟨1, "205".data, "55".data, "16".data, 2, []⟩]
      "205".data "55".data "16".data "3".data (.ok 9 []) "down".data 3
      ⟨1, "205".data, "55".data, "16".data, 2, []⟩ (by decide) (by decide) (by decide)
      (by decide) (by decide) (by simp) (by simp) rfl rfl rfl
  · exact claim_C9.2.2.1 [⟨1, "205".data, "55".data, "16".data, 2, []⟩]
      (fun _ => none) 5 .ok "down".data ⟨1, "205".data, "55".data, "16".data, 2, []⟩
      (by simp) (by simp) (by decide)

/-- C10: the remove handler checks no lower bound: any `removeQty` strictly
below the current quantity — zero and negatives included — stores
`current − removeQty`, so a negative `removeQty` strictly increases stock;
and the input's `|| 1` default only replaces `NaN`, `0` and `-0`, letting a
typed negative value through unchanged. -/
theorem claim_C10 :
    (∀ (tyres : List Page.Tyre) (rq : Nat → Option Int) (q : Int) (dR : StoreReply)
      (rec : Page.Tyre), tyres.Pairwise (fun a b => a.id ≠ b.id) → rec ∈ tyres →
      q < rec.quantity →
      (∃ l₁ l₂, tyres = l₁ ++ rec :: l₂ ∧
        Page.handleRemoveTyre tyres rq rec.id q dR .ok =
          ⟨l₁ ++ { rec with quantity := rec.quantity - q } :: l₂,
           fun j => if j = rec.id then some 1 else rq j, []⟩) ∧
      (q < 0 → rec.quantity < rec.quantity - q)) ∧
    (∀ (tyres : List Sec.Tyre) (rq : Nat → Option Int) (q : Int) (dR : StoreReply)
      (rec : Sec.Tyre), tyres.Pairwise (fun a b => a.id ≠ b.id) → rec ∈ tyres →
      q < rec.quantity →
      (∃ l₁ l₂, tyres = l₁ ++ rec :: l₂ ∧
        Sec.handleRemoveTyre tyres rq rec.id q dR .ok =
          ⟨l₁ ++ { rec with quantity := rec.quantity - q } :: l₂,
           fun j => if j = rec.id then some 1 else rq j, []⟩) ∧
      (q < 0 → rec.quantity < rec.quantity - q)) ∧
    (∀ (s : List Char) (n : Int), jsParseInt s = some n → n ≠ 0 →
      removeQtyOnChange s = n) ∧
    (∀ s : List Char, jsParseInt s = none → removeQtyOnChange s = 1) ∧
    (∀ s : List Char, jsParseInt s = some 0 → removeQtyOnChange s = 1) := by
  refine ⟨?_, ?_, ?_, ?_, ?_⟩
  · intro tyres rq q dR rec hpw hmem hq
    refine ⟨?_, by omega⟩
    obtain ⟨l₁, l₂, hsplit⟩ := List.append_of_mem hmem
    subst hsplit
    refine ⟨l₁, l₂, rfl, ?_⟩
    unfold Page.handleRemoveTyre
    rw [page_find_id _ rec hpw hmem]
    simp only [if_neg (by omega : ¬q ≥ rec.quantity)]
    congr 1
    exact map_ite_update (fun t => t.id) (fun t => { t with quantity := rec.quantity - q })
      l₁ l₂ rec hpw
  · intro tyres rq q dR rec hpw hmem hq
    refine ⟨?_, by omega⟩
    obtain ⟨l₁, l₂, hsplit⟩ := List.append_of_mem hmem
    subst hsplit
    refine ⟨l₁, l₂, rfl, ?_⟩
    unfold Sec.handleRemoveTyre
    rw [sec_find_id _ rec hpw hmem]
    simp only [if_neg (by omega : ¬q ≥ rec.quantity)]
    congr 1
    exact map_ite_update (fun t => t.id) (fun t => { t with quantity := rec.quantity - q })
      l₁ l₂ rec hpw
  · intro s n h hn
    unfold removeQtyOnChange
    rw [h]
    simp [hn]
  · intro s h
    unfold removeQtyOnChange
    rw [h]
  · intro s h
    unfold removeQtyOnChange
    rw [h]
    simp

/-- C10 at a concrete input: the typed value `'-3'` survives the `|| 1`
default, and removing `-3` from a record of quantity 2 stores quantity 5. -/
theorem claim_C10_witness :
    removeQtyOnChange "-3".data = -3 ∧
    (∃ l₁ l₂, [(⟨1, "205".data, "55".data, "16".data, 2, []⟩ : Page.Tyre)] =
        l₁ ++ (⟨1, "205".data, "55".data, "16".data, 2, []⟩ : Page.Tyre) :: l₂ ∧
      Page.handleRemoveTyre [⟨1, "205".data, "55".data, "16".data, 2, []⟩]
          (fun _ => none) 1 (-3) .ok .ok =
        ⟨l₁ ++ { (⟨1, "205".data, "55".data, "16".data, 2, []⟩ : Page.Tyre) with
            quantity := 2 - (-3) } :: l₂,
         fun j => if j = 1 then some 1 else none, []⟩) := by
  constructor
  · exact claim_C10.2.2.1 "-3".data (-3) (by decide) (by decide)
  · exact (claim_C10.1 [⟨1, "205".data, "55".data, "16".data, 2, []⟩] (fun _ => none)
      (-3) .ok ⟨1, "205".data, "55".data, "16".data, 2, []⟩ (by simp) (by simp)
      (by decide)).1

/-! Sorting lemmas: JavaScript's stable sort under the width comparator. -/

theorem mergeSort_filter_stable {α : Type} (le : α → α → Bool)
    (htrans : ∀ (a b c : α), le a b → le b c → le a c)
    (htotal : ∀ (a b : α), le a b || le b a)
    (p : α → Bool) (hp : ∀ a b, p a = true → p b = true → le a b = true)
    (l : List α) :
    (l.mergeSort le).filter p = l.filter p := by
  have hpair : (l.filter p).Pairwise (fun a b => le a b = true) := by
    apply List.pairwise_of_forall_mem_list
    intro a ha b hb
    exact hp a b (List.of_mem_filter ha) (List.of_mem_filter hb)
  have h1 : List.Sublist (l.filter p) (l.mergeSort le) :=
    List.sublist_mergeSort htrans htotal hpair (List.filter_sublist l)
  have h2 : List.Sublist (l.filter p) ((l.mergeSort le).filter p) := by
    have h := h1.filter p
    rwa [List.filter_eq_self.mpr (fun a ha => List.of_mem_filter ha)] at h
  have h3 : ((l.mergeSort le).filter p).length = (l.filter p).length :=
    ((List.mergeSort_perm l le).filter p).length_eq
  exact (h2.eq_of_length h3.symm).symm

theorem page_cmp_asc (a b : Page.Tyre) :
    Page.sortCompare "asc".data a b = Page.widthNum a - Page.widthNum b := by
  simp [Page.sortCompare]

theorem page_cmp_desc (a b : Page.Tyre) :
    Page.sortCompare "desc".data a b = Page.widthNum b - Page.widthNum a := by
  have h : (("desc".data : List Char) == "asc".data) = false := by decide
  simp [Page.sortCompare, h]

theorem sec_cmp_asc (a b : Sec.Tyre) :
    Sec.sortCompare "asc".data a b = Sec.widthNum a - Sec.widthNum b := by
  simp [Sec.sortCompare]

theorem sec_cmp_desc (a b : Sec.Tyre) :
    Sec.sortCompare "desc".data a b = Sec.widthNum b - Sec.widthNum a := by
  have h : (("desc".data : List Char) == "asc".data) = false := by decide
  simp [Sec.sortCompare, h]

theorem page_sorted_asc (l : List Page.Tyre) :
    List.Perm (Page.sortedTyres "asc".data l) l ∧
    (Page.sortedTyres "asc".data l).Pairwise
      (fun a b => Page.widthNum a ≤ Page.widthNum b) ∧
    ∀ k, (Page.sortedTyres "asc".data l).filter (fun t => Page.widthNum t == k) =
      l.filter (fun t => Page.widthNum t == k) := by
  have htrans : ∀ (a b c : Page.Tyre),
      (decide (Page.sortCompare "asc".data a b ≤ 0)) →
      (decide (Page.sortCompare "asc".data b c ≤ 0)) →
      (decide (Page.sortCompare "asc".data a c ≤ 0)) := by
    intro a b c hab hbc
    rw [page_cmp_asc] at hab hbc ⊢
    simp only [decide_eq_true_eq] at hab hbc ⊢
    omega
  have htotal : ∀ (a b : Page.Tyre),
      (decide (Page.sortCompare "asc".data a b ≤ 0)) ||
      (decide (Page.sortCompare "asc".data b a ≤ 0)) := by
    intro a b
    rw [Bool.or_eq_true]
    rw [page_cmp_asc, page_cmp_asc]
    simp only [decide_eq_true_eq]
    omega
  refine ⟨List.mergeSort_perm l _, ?_, ?_⟩
  · have h := List.sorted_mergeSort htrans htotal l
    apply h.imp
    intro a b hab
    rw [page_cmp_asc] at hab
    simp only [decide_eq_true_eq] at hab
    omega
  · intro k
    apply mergeSort_filter_stable _ htrans htotal
    intro a b ha hb
    rw [page_cmp_asc]
    simp only [beq_iff_eq] at ha hb
    simp only [decide_eq_true_eq]
    omega

theorem page_sorted_desc (l : List Page.Tyre) :
    List.Perm (Page.sortedTyres "desc".data l) l ∧
    (Page.sortedTyres "desc".data l).Pairwise
      (fun a b => Page.widthNum b ≤ Page.widthNum a) ∧
    ∀ k, (Page.sortedTyres "desc".data l).filter (fun t => Page.widthNum t == k) =
      l.filter (fun t => Page.widthNum t == k) := by
  have htrans : ∀ (a b c : Page.Tyre),
      (decide (Page.sortCompare "desc".data a b ≤ 0)) →
      (decide (Page.sortCompare "desc".data b c ≤ 0)) →
      (decide (Page.sortCompare "desc".data a c ≤ 0)) := by
    intro a b c hab hbc
    rw [page_cmp_desc] at hab hbc ⊢
    simp only [decide_eq_true_eq] at hab hbc ⊢
    omega
  have htotal : ∀ (a b : Page.Tyre),
      (decide (Page.sortCompare "desc".data a b ≤ 0)) ||
      (decide (Page.sortCompare "desc".data b a ≤ 0)) := by
    intro a b
    rw [Bool.or_eq_true]
    rw [page_cmp_desc, page_cmp_desc]
    simp only [decide_eq_true_eq]
    omega
  refine ⟨List.mergeSort_perm l _, ?_, ?_⟩
  · have h := List.sorted_mergeSort htrans htotal l
    apply h.imp
    intro a b hab
    rw [page_cmp_desc] at hab
    simp only [decide_eq_true_eq] at hab
    omega
  · intro k
    apply mergeSort_filter_stable _ htrans htotal
    intro a b ha hb
    rw [page_cmp_desc]
    simp only [beq_iff_eq] at ha hb
    simp only [decide_eq_true_eq]
    omega

theorem sec_sorted_asc (l : List Sec.Tyre) :
    List.Perm (Sec.sortedTyres "asc".data l) l ∧
    (Sec.sortedTyres "asc".data l).Pairwise
      (fun a b => Sec.widthNum a ≤ Sec.widthNum b) ∧
    ∀ k, (Sec.sortedTyres "asc".data l).filter (fun t => Sec.widthNum t == k) =
      l.filter (fun t => Sec.widthNum t == k) := by
  have htrans : ∀ (a b c : Sec.Tyre),
      (decide (Sec.sortCompare "asc".data a b ≤ 0)) →
      (decide (Sec.sortCompare "asc".data b c ≤ 0)) →
      (decide (Sec.sortCompare "asc".data a c ≤ 0)) := by
    intro a b c hab hbc
    rw [sec_cmp_asc] at hab hbc ⊢
    simp only [decide_eq_true_eq] at hab hbc ⊢
    omega
  have htotal : ∀ (a b : Sec.Tyre),
      (decide (Sec.sortCompare "asc".data a b ≤ 0)) ||
      (decide (Sec.sortCompare "asc".data b a ≤ 0)) := by
    intro a b
    rw [Bool.or_eq_true]
    rw [sec_cmp_asc, sec_cmp_asc]
    simp only [decide_eq_true_eq]
    omega
  refine ⟨List.mergeSort_perm l _, ?_, ?_⟩
  · have h := List.sorted_mergeSort htrans htotal l
    apply h.imp
    intro a b hab
    rw [sec_cmp_asc] at hab
    simp only [decide_eq_true_eq] at hab
    omega
  · intro k
    apply mergeSort_filter_stable _ htrans htotal
    intro a b ha hb
    rw [sec_cmp_asc]
    simp only [beq_iff_eq] at ha hb
    simp only [decide_eq_true_eq]
    omega

theorem sec_sorted_desc (l : List Sec.Tyre) :
    List.Perm (Sec.sortedTyres "desc".data l) l ∧
    (Sec.sortedTyres "desc".data l).Pairwise
      (fun a b => Sec.widthNum b ≤ Sec.widthNum a) ∧
    ∀ k, (Sec.sortedTyres "desc".data l).filter (fun t => Sec.widthNum t == k) =
      l.filter (fun t => Sec.widthNum t == k) := by
  have htrans : ∀ (a b c : Sec.Tyre),
      (decide (Sec.sortCompare "desc".data a b ≤ 0)) →
      (decide (Sec.sortCompare "desc".data b c ≤ 0)) →
      (decide (Sec.sortCompare "desc".data a c ≤ 0)) := by
    intro a b c hab hbc
    rw [sec_cmp_desc] at hab hbc ⊢
    simp only [decide_eq_true_eq] at hab hbc ⊢
    omega
  have htotal : ∀ (a b : Sec.Tyre),
      (decide (Sec.sortCompare "desc".data a b ≤ 0)) ||
      (decide (Sec.sortCompare "desc".data b a ≤ 0)) := by
    intro a b
    rw [Bool.or_eq_true]
    rw [sec_cmp_desc, sec_cmp_desc]
    simp only [decide_eq_true_eq]
    omega
  refine ⟨List.mergeSort_perm l _, ?_, ?_⟩
  · have h := List.sorted_mergeSort htrans htotal l
    apply h.imp
    intro a b hab
    rw [sec_cmp_desc] at hab
    simp only [decide_eq_true_eq] at hab
    omega
  · intro k
    apply mergeSort_filter_stable _ htrans htotal
    intro a b ha hb
    rw [sec_cmp_desc]
    simp only [beq_iff_eq] at ha hb
    simp only [decide_eq_true_eq]
    omega

/-- C8: on lists whose widths all parse as base-10 integers (`widthNum` then
is exactly the parsed value, last conjunct), the sort is a permutation of
the filtered list ordered by numeric width — ascending for `'asc'` (the
`useState('asc')` default), descending for `'desc'` — and is stable:
records of equal numeric width keep their relative order. -/
theorem claim_C8 :
    Page.initialSortOrder = "asc".data ∧
    (∀ l : List Page.Tyre, (∀ t ∈ l, (jsParseInt t.tyre_width).isSome = true) →
      List.Perm (Page.sortedTyres "asc".data l) l ∧
      (Page.sortedTyres "asc".data l).Pairwise
        (fun a b => Page.widthNum a ≤ Page.widthNum b) ∧
      ∀ k, (Page.sortedTyres "asc".data l).filter (fun t => Page.widthNum t == k) =
        l.filter (fun t => Page.widthNum t == k)) ∧
    (∀ l : List Page.Tyre, (∀ t ∈ l, (jsParseInt t.tyre_width).isSome = true) →
      List.Perm (Page.sortedTyres "desc".data l) l ∧
      (Page.sortedTyres "desc".data l).Pairwise
        (fun a b => Page.widthNum b ≤ Page.widthNum a) ∧
      ∀ k, (Page.sortedTyres "desc".data l).filter (fun t => Page.widthNum t == k) =
        l.filter (fun t => Page.widthNum t == k)) ∧
    (∀ t : Page.Tyre, (jsParseInt t.tyre_width).isSome = true →
      jsParseInt t.tyre_width = some (Page.widthNum t)) ∧
    Sec.initialSortOrder = "asc".data ∧
    (∀ l : List Sec.Tyre, (∀ t ∈ l, (jsParseInt t.tyre_width).isSome = true) →
      List.Perm (Sec.sortedTyres "asc".data l) l ∧
      (Sec.sortedTyres "asc".data l).Pairwise
        (fun a b => Sec.widthNum a ≤ Sec.widthNum b) ∧
      ∀ k, (Sec.sortedTyres "asc".data l).filter (fun t => Sec.widthNum t == k) =
        l.filter (fun t => Sec.widthNum t == k)) ∧
    (∀ l : List Sec.Tyre, (∀ t ∈ l, (jsParseInt t.tyre_width).isSome = true) →
      List.Perm (Sec.sortedTyres "desc".data l) l ∧
      (Sec.sortedTyres "desc".data l).Pairwise
        (fun a b => Sec.widthNum b ≤ Sec.widthNum a) ∧
      ∀ k, (Sec.sortedTyres "desc".data l).filter (fun t => Sec.widthNum t == k) =
        l.filter (fun t => Sec.widthNum t == k)) ∧
    (∀ t : Sec.Tyre, (jsParseInt t.tyre_width).isSome = true →
      jsParseInt t.tyre_width = some (Sec.widthNum t)) := by
  refine ⟨rfl, fun l _ => page_sorted_asc l, fun l _ => page_sorted_desc l, ?_, rfl,
    fun l _ => sec_sorted_asc l, fun l _ => sec_sorted_desc l, ?_⟩
  · intro t h
    rw [Option.isSome_iff_exists] at h
    obtain ⟨k, hk⟩ := h
    rw [hk]
    unfold Page.widthNum
    rw [hk]
    rfl
  · intro t h
    rw [Option.isSome_iff_exists] at h
    obtain ⟨k, hk⟩ := h
    rw [hk]
    unfold Sec.widthNum
    rw [hk]
    rfl

/-- C8 at a concrete input: the spec's 205/195 scenario — all widths parse,
so ascending and descending sorts are ordered permutations that keep equal
widths stable. -/
theorem claim_C8_witness :
    List.Perm (Page.sortedTyres "asc".data
      [⟨1, "205".data, "55".data, "16".data, 2, []⟩,
       ⟨2, "195".data, "60".data, "15".data, 1, []⟩])
      [⟨1, "205".data, "55".data, "16".data, 2, []⟩,
       ⟨2, "195".data, "60".data, "15".data, 1, []⟩] ∧
    (Page.sortedTyres "asc".data
      [⟨1, "205".data, "55".data, "16".data, 2, []⟩,
       ⟨2, "195".data, "60".data, "15".data, 1, []⟩]).Pairwise
      (fun a b => Page.widthNum a ≤ Page.widthNum b) := by
  have h := claim_C8.2.1
    [⟨1, "205".data, "55".data, "16".data, 2, []⟩,
     ⟨2, "195".data, "60".data, "15".data, 1, []⟩] (by decide)
  exact ⟨h.1, h.2.1⟩
